import Mathlib

/-!
# camunda-history-viewer: the two history fetches and the duration helper

A shallow embedding of `main.go`.

* Go `string` and `[]byte` values are Lean strings; a `nil` slice and an empty
  slice are both the empty list; Go `int` and `int64` are `Int` (the program does
  no arithmetic on them), with the 64-bit range enforced where the JSON decoder
  enforces it.
* The package-level variables `camundaBaseURL`, `camundaUser`, `camundaPass`
  are the fields of `Config`.
* The program's calls into `net/http` and `io` are answered by a `Net` value
  (what `http.NewRequest` says about a URL, what `client.Do` returns, what
  reading the body yields); every call the program makes is recorded, in order,
  in the `trace` of the outcome.
* `fmt.Sprintf`, `fmt.Errorf` and `json.Unmarshal` are modelled concretely, for
  the formats and the target types that `main.go` uses.
-/

namespace CamundaHistoryViewer

/-! ## Go values -/

/-- Go `error` values that reach the fetch functions. -/
inductive GoError where
  /-- An error value handed back by `net/http`, `net/url` or `io`. -/
  | external (text : String)
  /-- A `*json.SyntaxError`. -/
  | jsonSyntaxError
  /-- A `*json.UnmarshalTypeError`. -/
  | jsonUnmarshalTypeError
  /-- The value `fmt.Errorf` builds; `text` is what its `Error()` returns. -/
  | errorString (text : String)
deriving DecidableEq, Repr

/-- The package-level configuration variables of `main.go`. -/
structure Config where
  camundaBaseURL : String
  camundaUser : String
  camundaPass : String
deriving DecidableEq, Repr

/-- `ProcessInstance` of `main.go`; a pointer field is an `Option`. -/
structure ProcessInstance where
  ID : String
  State : String
  StartTime : String
  DurationInMillis : Option Int
  ProcessDefinitionVersion : Int
  BusinessKey : Option String
  DeleteReason : Option String
deriving DecidableEq, Repr

/-- `ActivityInstance` of `main.go`. -/
structure ActivityInstance where
  ActivityName : String
  ActivityType : String
  StartTime : String
  EndTime : String
  DurationInMillis : Int
  Canceled : Bool
deriving DecidableEq, Repr

/-! ## fmt -/

/-- The verb `%d` applied to a Go integer: its decimal rendering. -/
def formatInt (n : Int) : String :=
  if n < 0 then "-" ++ Nat.repr n.natAbs else Nat.repr n.toNat

/-- An operand of `fmt.Sprintf`. -/
inductive Arg where
  | str (s : String)
  | int (n : Int)

/-- The expansion of a format: `%s` takes a string operand verbatim, `%d` takes an
integer operand in decimal, every other character of the format is copied. These
are the only verbs in the formats of `main.go`, each met by an operand of its type. -/
def sprintfChars : List Char → List Arg → List Char
  | '%' :: 's' :: rest, Arg.str s :: args => s.data ++ sprintfChars rest args
  | '%' :: 'd' :: rest, Arg.int n :: args => (formatInt n).data ++ sprintfChars rest args
  | c :: rest, args => c :: sprintfChars rest args
  | [], _ => []

/-- `fmt.Sprintf`. -/
def Sprintf (format : String) (args : List Arg) : String :=
  ⟨sprintfChars format.data args⟩

/-- `fmt.Errorf` (no `%w` in the formats of `main.go`). -/
def Errorf (format : String) (args : List Arg) : GoError :=
  GoError.errorString (Sprintf format args)

/-- The template helper `formatDuration` of `main`. -/
def formatDuration (ms : Option Int) : String :=
  match ms with
  | none => "N/A"
  | some v => Sprintf "%dms" [Arg.int v]

/-! ## encoding/json: the scanner -/

/-- A JSON value as `json.Unmarshal` reads it; a number keeps its literal text. -/
inductive JSON where
  | null
  | bool (b : Bool)
  | number (literal : List Char)
  | string (s : String)
  | array (elems : List JSON)
  | object (members : List (String × JSON))

/-- One piece of a string literal: a character, or a `\uXXXX` escape's code unit. -/
inductive StrUnit where
  | char (c : Char)
  | escape (codeUnit : Nat)

/-- The lexical items of a JSON text. -/
inductive Token where
  | beginArray
  | endArray
  | beginObject
  | endObject
  | colon
  | comma
  | string (s : String)
  | number (literal : List Char)
  | litTrue
  | litFalse
  | litNull

/-- Where the scanner stands inside a number literal. -/
inductive NumState where
  /-- After the minus sign. -/
  | neg
  /-- After a leading `0`. -/
  | zero
  /-- In the digits of the integer part. -/
  | int
  /-- After the decimal point. -/
  | dot
  /-- In the digits of the fraction. -/
  | frac
  /-- After `e` or `E`. -/
  | e
  /-- After the sign of the exponent. -/
  | eSign
  /-- In the digits of the exponent. -/
  | exp
deriving DecidableEq

/-- Scanner states. Accumulated text is kept in reverse. -/
inductive Lex where
  /-- Between tokens. -/
  | idle
  /-- Inside a string literal. -/
  | str (acc : List StrUnit)
  /-- Right after a backslash in a string literal. -/
  | strEsc (acc : List StrUnit)
  /-- Inside `\uXXXX`: the hex digits read so far (fewer than four), as a value. -/
  | strU (acc : List StrUnit) (count : Nat) (value : Nat)
  /-- Inside a number literal. -/
  | num (acc : List Char) (st : NumState)
  /-- Inside `true`, `false` or `null`: the letters still to come. -/
  | lit (rest : List Char) (tok : Token)

/-- JSON whitespace. -/
def isSpace (c : Char) : Bool :=
  c == ' ' || c == '\t' || c == '\r' || c == '\n'

/-- A decimal digit. -/
def isDigit (c : Char) : Bool :=
  '0'.toNat ≤ c.toNat && c.toNat ≤ '9'.toNat

/-- The value of a hex digit. -/
def hexValue (c : Char) : Option Nat :=
  if '0'.toNat ≤ c.toNat && c.toNat ≤ '9'.toNat then some (c.toNat - '0'.toNat)
  else if 'a'.toNat ≤ c.toNat && c.toNat ≤ 'f'.toNat then some (c.toNat - 'a'.toNat + 10)
  else if 'A'.toNat ≤ c.toNat && c.toNat ≤ 'F'.toNat then some (c.toNat - 'A'.toNat + 10)
  else none

/-- The characters of a string literal from its pieces (`unquote`): a `\uXXXX` high
surrogate directly followed by a `\uXXXX` low surrogate is the one character they
encode, any other surrogate escape is U+FFFD. -/
def unquoteUnits : List StrUnit → List Char
  | [] => []
  | StrUnit.char c :: rest => c :: unquoteUnits rest
  | StrUnit.escape hi :: StrUnit.escape lo :: rest =>
    if 0xD800 ≤ hi && hi < 0xDC00 && 0xDC00 ≤ lo && lo < 0xE000 then
      Char.ofNat ((hi - 0xD800) * 1024 + (lo - 0xDC00) + 0x10000) :: unquoteUnits rest
    else if 0xD800 ≤ hi && hi < 0xE000 then
      Char.ofNat 0xFFFD :: unquoteUnits (StrUnit.escape lo :: rest)
    else Char.ofNat hi :: unquoteUnits (StrUnit.escape lo :: rest)
  | StrUnit.escape u :: rest =>
    if 0xD800 ≤ u && u < 0xE000 then Char.ofNat 0xFFFD :: unquoteUnits rest
    else Char.ofNat u :: unquoteUnits rest

/-- The one-letter escapes of a string literal and the characters they stand for. -/
def escapeTable : List (Char × Char) :=
  [('"', '"'), ('\\', '\\'), ('/', '/'), ('b', Char.ofNat 8), ('f', Char.ofNat 12),
   ('n', '\n'), ('r', '\r'), ('t', '\t')]

/-- The character a one-letter escape stands for. -/
def simpleEscape (c : Char) : Option Char :=
  escapeTable.lookup c

/-- The scanner between tokens: the next state and the tokens completed. -/
def idleStep (c : Char) : Option (Lex × List Token) :=
  if isSpace c then some (Lex.idle, [])
  else if c == '[' then some (Lex.idle, [Token.beginArray])
  else if c == ']' then some (Lex.idle, [Token.endArray])
  else if c == '\x7b' then some (Lex.idle, [Token.beginObject])
  else if c == '\x7d' then some (Lex.idle, [Token.endObject])
  else if c == ':' then some (Lex.idle, [Token.colon])
  else if c == ',' then some (Lex.idle, [Token.comma])
  else if c == '"' then some (Lex.str [], [])
  else if c == '-' then some (Lex.num [c] NumState.neg, [])
  else if c == '0' then some (Lex.num [c] NumState.zero, [])
  else if isDigit c then some (Lex.num [c] NumState.int, [])
  else if c == 't' then some (Lex.lit ['r', 'u', 'e'] Token.litTrue, [])
  else if c == 'f' then some (Lex.lit ['a', 'l', 's', 'e'] Token.litFalse, [])
  else if c == 'n' then some (Lex.lit ['u', 'l', 'l'] Token.litNull, [])
  else none

/-- A number literal ends before `c`: emit it and scan `c` as the start of what
follows. -/
def endNumber (acc : List Char) (c : Char) : Option (Lex × List Token) :=
  match idleStep c with
  | none => none
  | some (st, toks) => some (st, Token.number acc.reverse :: toks)

/-- The scanner inside a number literal. -/
def numStep (acc : List Char) (st : NumState) (c : Char) : Option (Lex × List Token) :=
  match st with
  | NumState.neg =>
    if c == '0' then some (Lex.num (c :: acc) NumState.zero, [])
    else if isDigit c then some (Lex.num (c :: acc) NumState.int, [])
    else none
  | NumState.zero =>
    if c == '.' then some (Lex.num (c :: acc) NumState.dot, [])
    else if c == 'e' || c == 'E' then some (Lex.num (c :: acc) NumState.e, [])
    else endNumber acc c
  | NumState.int =>
    if isDigit c then some (Lex.num (c :: acc) NumState.int, [])
    else if c == '.' then some (Lex.num (c :: acc) NumState.dot, [])
    else if c == 'e' || c == 'E' then some (Lex.num (c :: acc) NumState.e, [])
    else endNumber acc c
  | NumState.dot =>
    if isDigit c then some (Lex.num (c :: acc) NumState.frac, []) else none
  | NumState.frac =>
    if isDigit c then some (Lex.num (c :: acc) NumState.frac, [])
    else if c == 'e' || c == 'E' then some (Lex.num (c :: acc) NumState.e, [])
    else endNumber acc c
  | NumState.e =>
    if c == '+' || c == '-' then some (Lex.num (c :: acc) NumState.eSign, [])
    else if isDigit c then some (Lex.num (c :: acc) NumState.exp, [])
    else none
  | NumState.eSign =>
    if isDigit c then some (Lex.num (c :: acc) NumState.exp, []) else none
  | NumState.exp =>
    if isDigit c then some (Lex.num (c :: acc) NumState.exp, [])
    else endNumber acc c

/-- One character of input: the next state and the tokens completed, or `none`
at a character the JSON grammar does not allow there. -/
def lexStep (st : Lex) (c : Char) : Option (Lex × List Token) :=
  match st with
  | Lex.idle => idleStep c
  | Lex.str acc =>
    if c == '"' then some (Lex.idle, [Token.string ⟨unquoteUnits acc.reverse⟩])
    else if c == '\\' then some (Lex.strEsc acc, [])
    else if c.toNat < 0x20 then none
    else some (Lex.str (StrUnit.char c :: acc), [])
  | Lex.strEsc acc =>
    if c == 'u' then some (Lex.strU acc 0 0, [])
    else
      match simpleEscape c with
      | some d => some (Lex.str (StrUnit.char d :: acc), [])
      | none => none
  | Lex.strU acc count value =>
    match hexValue c with
    | none => none
    | some h =>
      if count < 3 then some (Lex.strU acc (count + 1) (value * 16 + h), [])
      else some (Lex.str (StrUnit.escape (value * 16 + h) :: acc), [])
  | Lex.num acc ns => numStep acc ns c
  | Lex.lit rest tok =>
    match rest with
    | [] => none
    | [d] => if c == d then some (Lex.idle, [tok]) else none
    | d :: more => if c == d then some (Lex.lit more tok, []) else none

/-- The end of the input: a number literal may end here, any other unfinished
token is an error. -/
def lexEnd (st : Lex) : Option (List Token) :=
  match st with
  | Lex.idle => some []
  | Lex.num acc NumState.zero => some [Token.number acc.reverse]
  | Lex.num acc NumState.int => some [Token.number acc.reverse]
  | Lex.num acc NumState.frac => some [Token.number acc.reverse]
  | Lex.num acc NumState.exp => some [Token.number acc.reverse]
  | _ => none

/-- The tokens of a text, or `none` at a lexical error. -/
def lexFrom : Lex → List Char → Option (List Token)
  | st, [] => lexEnd st
  | st, c :: cs =>
    match lexStep st c with
    | none => none
    | some (st1, toks) =>
      match lexFrom st1 cs with
      | none => none
      | some more => some (toks ++ more)

/-! ## encoding/json: the structure of a text -/

/-- An array or object that is still open, with what it holds so far (in reverse). -/
inductive Frame where
  | array (elems : List JSON)
  | object (members : List (String × JSON)) (key : Option String)

/-- What the grammar allows next. -/
inductive Expect where
  /-- A value must begin. -/
  | value
  /-- Right after `[`: a value or `]`. -/
  | valueOrEnd
  /-- Right after the opening brace: a key or the closing brace. -/
  | keyOrEnd
  /-- After a comma in an object: a key. -/
  | key
  /-- After a key. -/
  | colon
  /-- After a value inside an array or object: a comma or the closing bracket. -/
  | commaOrEnd
  /-- After the top-level value: nothing but whitespace. -/
  | done
deriving DecidableEq

/-- The state of the structural scan: the open arrays and objects (innermost
first), what may come next, and the top-level value once it is complete. -/
structure ParseState where
  stack : List Frame
  expect : Expect
  result : Option JSON

/-- The scanner's `maxNestingDepth`. -/
def maxNestingDepth : Nat := 10000

/-- A value is complete: it becomes the top-level value, the next element of the
innermost open array, or the value of the pending key of the innermost open object. -/
def completeValue (stack : List Frame) (v : JSON) : Option ParseState :=
  match stack with
  | [] => some ⟨[], Expect.done, some v⟩
  | Frame.array elems :: below => some ⟨Frame.array (v :: elems) :: below, Expect.commaOrEnd, none⟩
  | Frame.object members (some k) :: below =>
    some ⟨Frame.object ((k, v) :: members) none :: below, Expect.commaOrEnd, none⟩
  | Frame.object _ none :: _ => none

/-- A token where a value may begin. Opening an array or object beyond
`maxNestingDepth` open ones is an error. -/
def beginValue (stack : List Frame) (tok : Token) : Option ParseState :=
  match tok with
  | Token.string s => completeValue stack (JSON.string s)
  | Token.number l => completeValue stack (JSON.number l)
  | Token.litTrue => completeValue stack (JSON.bool true)
  | Token.litFalse => completeValue stack (JSON.bool false)
  | Token.litNull => completeValue stack JSON.null
  | Token.beginArray =>
    if stack.length < maxNestingDepth then some ⟨Frame.array [] :: stack, Expect.valueOrEnd, none⟩
    else none
  | Token.beginObject =>
    if stack.length < maxNestingDepth then some ⟨Frame.object [] none :: stack, Expect.keyOrEnd, none⟩
    else none
  | _ => none

/-- The innermost open array ends. -/
def closeArray (stack : List Frame) : Option ParseState :=
  match stack with
  | Frame.array elems :: below => completeValue below (JSON.array elems.reverse)
  | _ => none

/-- The innermost open object ends. -/
def closeObject (stack : List Frame) : Option ParseState :=
  match stack with
  | Frame.object members none :: below => completeValue below (JSON.object members.reverse)
  | _ => none

/-- A key of the innermost open object. -/
def beginKey (stack : List Frame) (k : String) : Option ParseState :=
  match stack with
  | Frame.object members none :: below => some ⟨Frame.object members (some k) :: below, Expect.colon, none⟩
  | _ => none

/-- One token of input, or `none` where the grammar does not allow it. -/
def parseStep (st : ParseState) (tok : Token) : Option ParseState :=
  match st.expect, tok with
  | Expect.value, t => beginValue st.stack t
  | Expect.valueOrEnd, Token.endArray => closeArray st.stack
  | Expect.valueOrEnd, t => beginValue st.stack t
  | Expect.keyOrEnd, Token.endObject => closeObject st.stack
  | Expect.keyOrEnd, Token.string k => beginKey st.stack k
  | Expect.key, Token.string k => beginKey st.stack k
  | Expect.colon, Token.colon => some ⟨st.stack, Expect.value, none⟩
  | Expect.commaOrEnd, Token.comma =>
    match st.stack with
    | Frame.array _ :: _ => some ⟨st.stack, Expect.value, none⟩
    | Frame.object _ none :: _ => some ⟨st.stack, Expect.key, none⟩
    | _ => none
  | Expect.commaOrEnd, Token.endArray => closeArray st.stack
  | Expect.commaOrEnd, Token.endObject => closeObject st.stack
  | _, _ => none

/-- All tokens of the input. -/
def parseTokens : ParseState → List Token → Option ParseState
  | st, [] => some st
  | st, tok :: toks =>
    match parseStep st tok with
    | none => none
    | some st1 => parseTokens st1 toks

/-- The value a text denotes, or `none` when the text is not valid JSON (what
`checkValid` refuses: `json.Unmarshal` then returns a `*json.SyntaxError` and leaves
its target untouched). -/
def parseJSON (data : String) : Option JSON :=
  match lexFrom Lex.idle data.data with
  | none => none
  | some toks =>
    match parseTokens ⟨[], Expect.value, none⟩ toks with
    | some ⟨[], Expect.done, some v⟩ => some v
    | _ => none

/-! ## encoding/json: storing into the program's types

Each store returns the new value of the target and whether an
`UnmarshalTypeError` was recorded. A JSON `null` sets a pointer to `nil` and
leaves any other target as it is; a value of the wrong type leaves the target's
value as it is, after a `nil` pointer has been pointed at a fresh zero value. -/

/-- `strconv.ParseInt(literal, 10, 64)` on a JSON number literal: the value when the
literal is an optional minus sign and digits within the 64-bit signed range. -/
def parseInt64 (literal : List Char) : Option Int :=
  let (negative, digits) :=
    match literal with
    | '-' :: rest => (true, rest)
    | _ => (false, literal)
  if digits.isEmpty || !digits.all isDigit then none
  else
    let magnitude : Nat := digits.foldl (fun acc c => acc * 10 + (c.toNat - '0'.toNat)) 0
    let value : Int := if negative then -(magnitude : Int) else (magnitude : Int)
    if -(2 : Int) ^ 63 ≤ value ∧ value < (2 : Int) ^ 63 then some value else none

/-- Store into a `string`. -/
def storeString (old : String) (v : JSON) : String × Bool :=
  match v with
  | JSON.string s => (s, false)
  | JSON.null => (old, false)
  | _ => (old, true)

/-- Store into an `int` or `int64` (both 64 bits wide). -/
def storeInt (old : Int) (v : JSON) : Int × Bool :=
  match v with
  | JSON.number l =>
    match parseInt64 l with
    | some n => (n, false)
    | none => (old, true)
  | JSON.null => (old, false)
  | _ => (old, true)

/-- Store into a `bool`. -/
def storeBool (old : Bool) (v : JSON) : Bool × Bool :=
  match v with
  | JSON.bool b => (b, false)
  | JSON.null => (old, false)
  | _ => (old, true)

/-- Store into a `*string`. -/
def storeStringPtr (old : Option String) (v : JSON) : Option String × Bool :=
  match v with
  | JSON.null => (none, false)
  | other =>
    let (s, bad) := storeString (old.getD "") other
    (some s, bad)

/-- Store into a `*int64`. -/
def storeIntPtr (old : Option Int) (v : JSON) : Option Int × Bool :=
  match v with
  | JSON.null => (none, false)
  | other =>
    let (n, bad) := storeInt (old.getD 0) other
    (some n, bad)

/-- What `foldName` does to a character, as far as a comparison with a name made
of ASCII letters can tell: ASCII lower case goes to upper case, and so do the
two other characters that fold to an ASCII letter (U+212A to `K`, U+017F to `S`). -/
def foldRune (c : Char) : Char :=
  if 'a'.toNat ≤ c.toNat && c.toNat ≤ 'z'.toNat then Char.ofNat (c.toNat - 32)
  else if c.toNat == 0x212A then 'K'
  else if c.toNat == 0x17F then 'S'
  else c

/-- The folded form of a name. -/
def foldName (s : String) : List Char :=
  s.data.map foldRune

/-- The field an object key is stored into: the field whose JSON name equals the
key, or else the first field whose name equals it up to case folding. -/
def findField {φ : Type} (fields : List (String × φ)) (key : String) : Option φ :=
  match fields.find? (fun f => f.1 == key) with
  | some f => some f.2
  | none =>
    match fields.find? (fun f => foldName f.1 == foldName key) with
    | some f => some f.2
    | none => none

/-- The fields of `ProcessInstance`. -/
inductive ProcessField where
  | id
  | state
  | startTime
  | durationInMillis
  | processDefinitionVersion
  | businessKey
  | deleteReason
deriving DecidableEq, Repr

/-- The `json` tags of `ProcessInstance`, in declaration order. -/
def processFields : List (String × ProcessField) :=
  [("id", ProcessField.id), ("state", ProcessField.state), ("startTime", ProcessField.startTime),
   ("durationInMillis", ProcessField.durationInMillis),
   ("processDefinitionVersion", ProcessField.processDefinitionVersion),
   ("businessKey", ProcessField.businessKey), ("deleteReason", ProcessField.deleteReason)]

/-- The zero value of `ProcessInstance`. -/
def ProcessInstance.zero : ProcessInstance :=
  ⟨"", "", "", none, 0, none, none⟩

/-- Store a value into one field of a `ProcessInstance`. -/
def ProcessInstance.store (p : ProcessInstance) (f : ProcessField) (v : JSON) :
    ProcessInstance × Bool :=
  match f with
  | ProcessField.id => let (x, bad) := storeString p.ID v; ({ p with ID := x }, bad)
  | ProcessField.state => let (x, bad) := storeString p.State v; ({ p with State := x }, bad)
  | ProcessField.startTime =>
    let (x, bad) := storeString p.StartTime v; ({ p with StartTime := x }, bad)
  | ProcessField.durationInMillis =>
    let (x, bad) := storeIntPtr p.DurationInMillis v; ({ p with DurationInMillis := x }, bad)
  | ProcessField.processDefinitionVersion =>
    let (x, bad) := storeInt p.ProcessDefinitionVersion v
    ({ p with ProcessDefinitionVersion := x }, bad)
  | ProcessField.businessKey =>
    let (x, bad) := storeStringPtr p.BusinessKey v; ({ p with BusinessKey := x }, bad)
  | ProcessField.deleteReason =>
    let (x, bad) := storeStringPtr p.DeleteReason v; ({ p with DeleteReason := x }, bad)

/-- One member of a JSON object decoded into a `ProcessInstance`: stored into the
field its key names, skipped when the key names none. -/
def ProcessInstance.member (acc : ProcessInstance × Bool) (m : String × JSON) :
    ProcessInstance × Bool :=
  match findField processFields m.1 with
  | none => acc
  | some f =>
    let (p, bad) := acc.1.store f m.2
    (p, acc.2 || bad)

/-- One element of the array decoded into a fresh `ProcessInstance`: an object is
stored member by member in the order of the text, `null` leaves the zero value, any
other value is a type error. -/
def decodeProcessInstance (v : JSON) : ProcessInstance × Bool :=
  match v with
  | JSON.object members => members.foldl ProcessInstance.member (ProcessInstance.zero, false)
  | JSON.null => (ProcessInstance.zero, false)
  | _ => (ProcessInstance.zero, true)

/-- The fields of `ActivityInstance`. -/
inductive ActivityField where
  | activityName
  | activityType
  | startTime
  | endTime
  | durationInMillis
  | canceled
deriving DecidableEq, Repr

/-- The `json` tags of `ActivityInstance`, in declaration order. -/
def activityFields : List (String × ActivityField) :=
  [("activityName", ActivityField.activityName), ("activityType", ActivityField.activityType),
   ("startTime", ActivityField.startTime), ("endTime", ActivityField.endTime),
   ("durationInMillis", ActivityField.durationInMillis), ("canceled", ActivityField.canceled)]

/-- The zero value of `ActivityInstance`. -/
def ActivityInstance.zero : ActivityInstance :=
  ⟨"", "", "", "", 0, false⟩

/-- Store a value into one field of an `ActivityInstance`. -/
def ActivityInstance.store (a : ActivityInstance) (f : ActivityField) (v : JSON) :
    ActivityInstance × Bool :=
  match f with
  | ActivityField.activityName =>
    let (x, bad) := storeString a.ActivityName v; ({ a with ActivityName := x }, bad)
  | ActivityField.activityType =>
    let (x, bad) := storeString a.ActivityType v; ({ a with ActivityType := x }, bad)
  | ActivityField.startTime =>
    let (x, bad) := storeString a.StartTime v; ({ a with StartTime := x }, bad)
  | ActivityField.endTime =>
    let (x, bad) := storeString a.EndTime v; ({ a with EndTime := x }, bad)
  | ActivityField.durationInMillis =>
    let (x, bad) := storeInt a.DurationInMillis v; ({ a with DurationInMillis := x }, bad)
  | ActivityField.canceled =>
    let (x, bad) := storeBool a.Canceled v; ({ a with Canceled := x }, bad)

/-- One member of a JSON object decoded into an `ActivityInstance`. -/
def ActivityInstance.member (acc : ActivityInstance × Bool) (m : String × JSON) :
    ActivityInstance × Bool :=
  match findField activityFields m.1 with
  | none => acc
  | some f =>
    let (a, bad) := acc.1.store f m.2
    (a, acc.2 || bad)

/-- One element of the array decoded into a fresh `ActivityInstance`. -/
def decodeActivityInstance (v : JSON) : ActivityInstance × Bool :=
  match v with
  | JSON.object members => members.foldl ActivityInstance.member (ActivityInstance.zero, false)
  | JSON.null => (ActivityInstance.zero, false)
  | _ => (ActivityInstance.zero, true)

/-- `json.Unmarshal(data, &target)` for a `nil` slice `target` of records: the
slice afterwards and the error returned. Invalid JSON leaves the slice `nil`
and returns a syntax error. An array is decoded element by element, in order, each
into a fresh element, going on after a type error; `null` leaves the slice `nil`;
any other value is a type error. After a type error the slice holds what was
decoded all the same. -/
def unmarshalSlice {α : Type} (decodeElem : JSON → α × Bool) (data : String) :
    List α × Option GoError :=
  match parseJSON data with
  | none => ([], some GoError.jsonSyntaxError)
  | some (JSON.array elems) =>
    let decoded := elems.map decodeElem
    (decoded.map Prod.fst,
      if decoded.any Prod.snd then some GoError.jsonUnmarshalTypeError else none)
  | some JSON.null => ([], none)
  | some _ => ([], some GoError.jsonUnmarshalTypeError)

/-- `json.Unmarshal(body, &processes)`. -/
def unmarshalProcesses (body : String) : List ProcessInstance × Option GoError :=
  unmarshalSlice decodeProcessInstance body

/-- `json.Unmarshal(body, &activities)`. -/
def unmarshalActivities (body : String) : List ActivityInstance × Option GoError :=
  unmarshalSlice decodeActivityInstance body

/-! ## net/http and io, as the program uses them -/

/-- The request `http.NewRequest` builds and `SetBasicAuth` completes. -/
structure Request where
  Method : String
  URL : String
  basicAuth : Option (String × String)
deriving DecidableEq, Repr

/-- The response `client.Do` returns: its status code, and what
`io.ReadAll(resp.Body)` yields (the bytes read, and the read error if any). -/
structure Response where
  StatusCode : Int
  body : String
  readErr : Option GoError
deriving DecidableEq, Repr

/-- The answers of the HTTP library to the program's calls. -/
structure Net where
  /-- The error of `http.NewRequest(method, url, nil)`, `none` when it builds the request. -/
  newRequest : String → String → Option GoError
  /-- The result of `client.Do(req)`. -/
  clientDo : Request → Except GoError Response

/-- What a fetch does, one entry per step, in program order. -/
inductive Step where
  | newRequest (method url : String)
  | setBasicAuth (username password : String)
  | clientDo (req : Request)
  | statusCheck (code : Int)
  | readAll
  | unmarshal (data : String)
  | bodyClose
deriving DecidableEq, Repr

/-- The two results of a fetch, and the steps it took. -/
structure Outcome (α : Type) where
  records : List α
  err : Option GoError
  trace : List Step
deriving DecidableEq, Repr

/-- `http.StatusOK`. -/
def StatusOK : Int := 200

/-- `fetchProcesses` of `main.go`. -/
def fetchProcesses (cfg : Config) (net : Net) : Outcome ProcessInstance :=
  let url := Sprintf "%s/history/process-instance?processDefinitionKey=ticket-refund&sortBy=startTime&sortOrder=desc&maxResults=10" [Arg.str cfg.camundaBaseURL]
  match net.newRequest "GET" url with
  | some err => ⟨[], some err, [Step.newRequest "GET" url]⟩
  | none =>
    let req : Request := ⟨"GET", url, some (cfg.camundaUser, cfg.camundaPass)⟩
    let sent := [Step.newRequest "GET" url, Step.setBasicAuth cfg.camundaUser cfg.camundaPass,
      Step.clientDo req]
    match net.clientDo req with
    | Except.error err => ⟨[], some err, sent⟩
    | Except.ok resp =>
      if resp.StatusCode ≠ StatusOK then
        ⟨[], some (Errorf "status %d: %s" [Arg.int resp.StatusCode, Arg.str resp.body]),
          sent ++ [Step.statusCheck resp.StatusCode, Step.readAll, Step.bodyClose]⟩
      else
        match resp.readErr with
        | some err =>
          ⟨[], some err, sent ++ [Step.statusCheck resp.StatusCode, Step.readAll, Step.bodyClose]⟩
        | none =>
          match unmarshalProcesses resp.body with
          | (_, some err) =>
            ⟨[], some err, sent ++ [Step.statusCheck resp.StatusCode, Step.readAll,
              Step.unmarshal resp.body, Step.bodyClose]⟩
          | (processes, none) =>
            ⟨processes, none, sent ++ [Step.statusCheck resp.StatusCode, Step.readAll,
              Step.unmarshal resp.body, Step.bodyClose]⟩

/-- `fetchProcessHistory` of `main.go`. -/
def fetchProcessHistory (cfg : Config) (net : Net) (processID : String) :
    Outcome ActivityInstance :=
  let url := Sprintf "%s/history/activity-instance?processInstanceId=%s&sortBy=startTime&sortOrder=asc" [Arg.str cfg.camundaBaseURL, Arg.str processID]
  match net.newRequest "GET" url with
  | some err => ⟨[], some err, [Step.newRequest "GET" url]⟩
  | none =>
    let req : Request := ⟨"GET", url, some (cfg.camundaUser, cfg.camundaPass)⟩
    let sent := [Step.newRequest "GET" url, Step.setBasicAuth cfg.camundaUser cfg.camundaPass,
      Step.clientDo req]
    match net.clientDo req with
    | Except.error err => ⟨[], some err, sent⟩
    | Except.ok resp =>
      if resp.StatusCode ≠ StatusOK then
        ⟨[], some (Errorf "status %d: %s" [Arg.int resp.StatusCode, Arg.str resp.body]),
          sent ++ [Step.statusCheck resp.StatusCode, Step.readAll, Step.bodyClose]⟩
      else
        match resp.readErr with
        | some err =>
          ⟨[], some err, sent ++ [Step.statusCheck resp.StatusCode, Step.readAll, Step.bodyClose]⟩
        | none =>
          match unmarshalActivities resp.body with
          | (_, some err) =>
            ⟨[], some err, sent ++ [Step.statusCheck resp.StatusCode, Step.readAll,
              Step.unmarshal resp.body, Step.bodyClose]⟩
          | (activities, none) =>
            ⟨activities, none, sent ++ [Step.statusCheck resp.StatusCode, Step.readAll,
              Step.unmarshal resp.body, Step.bodyClose]⟩

/-- The request of `fetchProcesses` as the statements below name it: `GET`, the
base URL followed by the fixed path and query, and the configured credentials. -/
def processesRequest (cfg : Config) : Request :=
  ⟨"GET", cfg.camundaBaseURL ++ "/history/process-instance?processDefinitionKey=ticket-refund&sortBy=startTime&sortOrder=desc&maxResults=10",
    some (cfg.camundaUser, cfg.camundaPass)⟩

/-- The request of `fetchProcessHistory` as the statements below name it. -/
def historyRequest (cfg : Config) (processID : String) : Request :=
  ⟨"GET", cfg.camundaBaseURL ++ "/history/activity-instance?processInstanceId=" ++ processID ++ "&sortBy=startTime&sortOrder=asc",
    some (cfg.camundaUser, cfg.camundaPass)⟩

/-- The steps of a fetch up to and including its one call of `client.Do`. -/
def sentSteps (cfg : Config) (req : Request) : List Step :=
  [Step.newRequest "GET" req.URL, Step.setBasicAuth cfg.camundaUser cfg.camundaPass,
    Step.clientDo req]

/-! ## Concrete surroundings for the worked examples -/

/-- The default configuration of `init`. -/
def defaultConfig : Config :=
  ⟨"http://localhost:8080/engine-rest", "demo", "demo"⟩

/-- A remote that answers every request with `resp`. -/
def answering (resp : Response) : Net :=
  ⟨fun _ _ => none, fun _ => Except.ok resp⟩

/-- A transport that fails every request with `e`. -/
def failing (e : GoError) : Net :=
  ⟨fun _ _ => none, fun _ => Except.error e⟩

/-- `stringContainsCTLByte` of `net/url`: whether the text holds an ASCII control
character (below U+0020, or U+007F). -/
def stringContainsCTLByte (s : String) : Bool :=
  s.data.any (fun c => c.toNat < 0x20 || c.toNat == 0x7f)

/-- A library whose `http.NewRequest` refuses a URL that holds a control character,
as `url.Parse` does, and whose remote answers every request with `resp`. -/
def refusingControlCharacters (resp : Response) : Net :=
  ⟨fun _ url =>
      if stringContainsCTLByte url then
        some (GoError.external "net/url: invalid control character in URL")
      else none,
    fun _ => Except.ok resp⟩

/-! ## Notions the statements use -/

/-- Whether a step is a call of `client.Do`. -/
def Step.isClientDo : Step → Bool
  | Step.clientDo _ => true
  | _ => false

/-- Whether a step is a call of `http.NewRequest`. -/
def Step.isNewRequest : Step → Bool
  | Step.newRequest _ _ => true
  | _ => false

/-- Whether a step deals with a response: checking its status, reading its body,
decoding, closing. -/
def Step.handlesResponse : Step → Bool
  | Step.statusCheck _ => true
  | Step.readAll => true
  | Step.unmarshal _ => true
  | Step.bodyClose => true
  | _ => false

/-- Order of two timestamps written in one format and zone: character by
character. -/
def timeLE : List Char → List Char → Bool
  | [], _ => true
  | _ :: _, [] => false
  | a :: as, b :: bs => a.toNat < b.toNat || (a.toNat == b.toNat && timeLE as bs)

/-- Each timestamp is at or after the next one. -/
def startTimesDescending : List String → Bool
  | a :: b :: rest => timeLE b.data a.data && startTimesDescending (b :: rest)
  | _ => true

/-- Each timestamp is at or before the next one. -/
def startTimesAscending : List String → Bool
  | a :: b :: rest => timeLE a.data b.data && startTimesAscending (b :: rest)
  | _ => true

/-- The part of a URL that a request carries to the remote: `url.Parse` cuts the
text at its first `#`, and what follows is the fragment, which is not sent. -/
def beforeFragment (url : String) : String :=
  ⟨url.data.takeWhile (fun c => c != '#')⟩

/-- The value an object holds under a name, keys compared up to case folding: of
the members whose key folds to the same text as `name`, the value of the last;
`none` when there is no such member. -/
def memberValue (name : String) : List (String × JSON) → Option JSON
  | [] => none
  | m :: rest =>
    match memberValue name rest with
    | some v => some v
    | none => if foldName m.1 = foldName name then some m.2 else none

/-- The body of the spec's decoding scenario. -/
def scenarioBody : String :=
  "[\x7b\"id\":\"pi-1\",\"state\":\"COMPLETED\",\"startTime\":\"2024-01-01T10:00:00Z\",\"durationInMillis\":1500,\"processDefinitionVersion\":2,\"businessKey\":null,\"deleteReason\":null\x7d]"

/-- A body of eleven process instances, most recently started first. -/
def elevenProcessesBody : String :=
  "[\x7b\"id\":\"p11\",\"startTime\":\"2024-01-11T00:00:00Z\"\x7d,\x7b\"id\":\"p10\",\"startTime\":\"2024-01-10T00:00:00Z\"\x7d,\x7b\"id\":\"p09\",\"startTime\":\"2024-01-09T00:00:00Z\"\x7d,\x7b\"id\":\"p08\",\"startTime\":\"2024-01-08T00:00:00Z\"\x7d,\x7b\"id\":\"p07\",\"startTime\":\"2024-01-07T00:00:00Z\"\x7d,\x7b\"id\":\"p06\",\"startTime\":\"2024-01-06T00:00:00Z\"\x7d,\x7b\"id\":\"p05\",\"startTime\":\"2024-01-05T00:00:00Z\"\x7d,\x7b\"id\":\"p04\",\"startTime\":\"2024-01-04T00:00:00Z\"\x7d,\x7b\"id\":\"p03\",\"startTime\":\"2024-01-03T00:00:00Z\"\x7d,\x7b\"id\":\"p02\",\"startTime\":\"2024-01-02T00:00:00Z\"\x7d,\x7b\"id\":\"p01\",\"startTime\":\"2024-01-01T00:00:00Z\"\x7d]"

/-- A body of two process instances, earliest first. -/
def ascendingProcessesBody : String :=
  "[\x7b\"id\":\"p01\",\"startTime\":\"2024-01-01T10:00:00Z\"\x7d,\x7b\"id\":\"p02\",\"startTime\":\"2024-01-02T10:00:00Z\"\x7d]"

/-- A body of two activities, latest first. -/
def descendingActivitiesBody : String :=
  "[\x7b\"activityName\":\"Refund\",\"startTime\":\"2024-01-02T10:00:00Z\"\x7d,\x7b\"activityName\":\"Review\",\"startTime\":\"2024-01-01T10:00:00Z\"\x7d]"

/-- A body whose second element is not an object: process instances. -/
def mistypedProcessesBody : String :=
  "[\x7b\"id\":\"pi-1\"\x7d,7]"

/-- A body whose second element is not an object: activities. -/
def mistypedActivitiesBody : String :=
  "[\x7b\"activityName\":\"Review\"\x7d,7]"

/-- A body cut off after its first element. -/
def truncatedBody : String :=
  "[\x7b\"id\":\"pi-1\"\x7d,"

/-- A body whose only key is `durationInMillis` in upper case. -/
def upperCaseKeyBody : String :=
  "[\x7b\"DURATIONINMILLIS\":5\x7d]"

/-- A body with a zero duration and an empty business key. -/
def zeroValuesBody : String :=
  "[\x7b\"id\":\"pi-2\",\"durationInMillis\":0,\"businessKey\":\"\"\x7d]"

/-! ## Facts about the formats -/

/-- The process-list URL format expands to the base URL followed by the fixed path
and query. -/
theorem Sprintf_processesURL (B : String) :
    Sprintf "%s/history/process-instance?processDefinitionKey=ticket-refund&sortBy=startTime&sortOrder=desc&maxResults=10" [Arg.str B]
      = B ++ "/history/process-instance?processDefinitionKey=ticket-refund&sortBy=startTime&sortOrder=desc&maxResults=10" := by
  rfl

/-- The history URL format expands to the base URL, the path, the identifier as it
is, and the fixed tail of the query. -/
theorem Sprintf_historyURL (B p : String) :
    Sprintf "%s/history/activity-instance?processInstanceId=%s&sortBy=startTime&sortOrder=asc" [Arg.str B, Arg.str p]
      = B ++ "/history/activity-instance?processInstanceId=" ++ p ++ "&sortBy=startTime&sortOrder=asc" := by
  apply String.ext
  simp [Sprintf, sprintfChars]

/-- The `%d` verb renders an integer as Lean does. -/
theorem formatInt_eq_toString (n : Int) : formatInt n = toString n := by
  cases n with
  | ofNat m => rfl
  | negSucc m =>
    have h : Int.negSucc m < 0 := Int.negSucc_lt_zero m
    simp only [formatInt, h, if_true]
    rfl

/-- The status error format expands to `status `, the code in decimal, `: ` and the
body as it is. -/
theorem Sprintf_status (code : Int) (body : String) :
    Sprintf "status %d: %s" [Arg.int code, Arg.str body]
      = "status " ++ toString code ++ ": " ++ body := by
  rw [← formatInt_eq_toString]
  apply String.ext
  simp [Sprintf, sprintfChars]

/-- The duration format expands to the number in decimal followed by `ms`. -/
theorem Sprintf_ms (n : Int) : Sprintf "%dms" [Arg.int n] = toString n ++ "ms" := by
  rw [← formatInt_eq_toString]
  apply String.ext
  simp [Sprintf, sprintfChars]

/-! ## The paths through the two fetches -/

/-- `fetchProcesses` when `http.NewRequest` refuses the URL. -/
theorem fetchProcesses_of_newRequest_error (cfg : Config) (net : Net) (e : GoError)
    (h : net.newRequest "GET" (processesRequest cfg).URL = some e) :
    fetchProcesses cfg net = ⟨[], some e, [Step.newRequest "GET" (processesRequest cfg).URL]⟩ := by
  simp only [processesRequest] at h
  simp only [fetchProcesses, Sprintf_processesURL, processesRequest, h]

/-- `fetchProcesses` when `client.Do` returns an error. -/
theorem fetchProcesses_of_do_error (cfg : Config) (net : Net) (e : GoError)
    (h1 : net.newRequest "GET" (processesRequest cfg).URL = none)
    (h2 : net.clientDo (processesRequest cfg) = Except.error e) :
    fetchProcesses cfg net = ⟨[], some e, sentSteps cfg (processesRequest cfg)⟩ := by
  simp only [processesRequest] at h1 h2
  simp only [fetchProcesses, Sprintf_processesURL, processesRequest, sentSteps, h1, h2]

/-- `fetchProcesses` when the response's status is not 200. -/
theorem fetchProcesses_of_status (cfg : Config) (net : Net) (resp : Response)
    (h1 : net.newRequest "GET" (processesRequest cfg).URL = none)
    (h2 : net.clientDo (processesRequest cfg) = Except.ok resp)
    (h3 : resp.StatusCode ≠ 200) :
    fetchProcesses cfg net =
      ⟨[], some (GoError.errorString ("status " ++ toString resp.StatusCode ++ ": " ++ resp.body)),
        sentSteps cfg (processesRequest cfg) ++
          [Step.statusCheck resp.StatusCode, Step.readAll, Step.bodyClose]⟩ := by
  simp only [processesRequest] at h1 h2
  have h3' : resp.StatusCode ≠ StatusOK := h3
  simp only [fetchProcesses, Sprintf_processesURL, processesRequest, sentSteps, h1, h2, h3',
    Errorf, Sprintf_status, ne_eq, not_false_eq_true, if_true]

/-- `fetchProcesses` when the body of a 200 response cannot be read. -/
theorem fetchProcesses_of_read_error (cfg : Config) (net : Net) (resp : Response) (e : GoError)
    (h1 : net.newRequest "GET" (processesRequest cfg).URL = none)
    (h2 : net.clientDo (processesRequest cfg) = Except.ok resp)
    (h3 : resp.StatusCode = 200) (h4 : resp.readErr = some e) :
    fetchProcesses cfg net =
      ⟨[], some e, sentSteps cfg (processesRequest cfg) ++
          [Step.statusCheck resp.StatusCode, Step.readAll, Step.bodyClose]⟩ := by
  simp only [processesRequest] at h1 h2
  have h3' : resp.StatusCode = StatusOK := h3
  simp only [fetchProcesses, Sprintf_processesURL, processesRequest, sentSteps, h1, h2, h3', h4,
    ne_eq, not_true_eq_false, if_false]

/-- `fetchProcesses` when the body of a 200 response has been read. -/
theorem fetchProcesses_of_body (cfg : Config) (net : Net) (resp : Response)
    (h1 : net.newRequest "GET" (processesRequest cfg).URL = none)
    (h2 : net.clientDo (processesRequest cfg) = Except.ok resp)
    (h3 : resp.StatusCode = 200) (h4 : resp.readErr = none) :
    fetchProcesses cfg net =
      ⟨match (unmarshalProcesses resp.body).2 with
        | some _ => []
        | none => (unmarshalProcesses resp.body).1,
       (unmarshalProcesses resp.body).2,
       sentSteps cfg (processesRequest cfg) ++
          [Step.statusCheck resp.StatusCode, Step.readAll, Step.unmarshal resp.body,
            Step.bodyClose]⟩ := by
  simp only [processesRequest] at h1 h2
  have h3' : resp.StatusCode = StatusOK := h3
  simp only [fetchProcesses, Sprintf_processesURL, processesRequest, sentSteps, h1, h2, h3', h4,
    ne_eq, not_true_eq_false, if_false]
  rcases hu : unmarshalProcesses resp.body with ⟨recs, _ | e⟩ <;> simp

/-- `fetchProcessHistory` when `http.NewRequest` refuses the URL. -/
theorem fetchProcessHistory_of_newRequest_error (cfg : Config) (net : Net) (p : String) (e : GoError)
    (h : net.newRequest "GET" (historyRequest cfg p).URL = some e) :
    fetchProcessHistory cfg net p = ⟨[], some e, [Step.newRequest "GET" (historyRequest cfg p).URL]⟩ := by
  simp only [historyRequest] at h
  simp only [fetchProcessHistory, Sprintf_historyURL, historyRequest, h]

/-- `fetchProcessHistory` when `client.Do` returns an error. -/
theorem fetchProcessHistory_of_do_error (cfg : Config) (net : Net) (p : String) (e : GoError)
    (h1 : net.newRequest "GET" (historyRequest cfg p).URL = none)
    (h2 : net.clientDo (historyRequest cfg p) = Except.error e) :
    fetchProcessHistory cfg net p = ⟨[], some e, sentSteps cfg (historyRequest cfg p)⟩ := by
  simp only [historyRequest] at h1 h2
  simp only [fetchProcessHistory, Sprintf_historyURL, historyRequest, sentSteps, h1, h2]

/-- `fetchProcessHistory` when the response's status is not 200. -/
theorem fetchProcessHistory_of_status (cfg : Config) (net : Net) (p : String) (resp : Response)
    (h1 : net.newRequest "GET" (historyRequest cfg p).URL = none)
    (h2 : net.clientDo (historyRequest cfg p) = Except.ok resp)
    (h3 : resp.StatusCode ≠ 200) :
    fetchProcessHistory cfg net p =
      ⟨[], some (GoError.errorString ("status " ++ toString resp.StatusCode ++ ": " ++ resp.body)),
        sentSteps cfg (historyRequest cfg p) ++
          [Step.statusCheck resp.StatusCode, Step.readAll, Step.bodyClose]⟩ := by
  simp only [historyRequest] at h1 h2
  have h3' : resp.StatusCode ≠ StatusOK := h3
  simp only [fetchProcessHistory, Sprintf_historyURL, historyRequest, sentSteps, h1, h2, h3',
    Errorf, Sprintf_status, ne_eq, not_false_eq_true, if_true]

/-- `fetchProcessHistory` when the body of a 200 response cannot be read. -/
theorem fetchProcessHistory_of_read_error (cfg : Config) (net : Net) (p : String) (resp : Response) (e : GoError)
    (h1 : net.newRequest "GET" (historyRequest cfg p).URL = none)
    (h2 : net.clientDo (historyRequest cfg p) = Except.ok resp)
    (h3 : resp.StatusCode = 200) (h4 : resp.readErr = some e) :
    fetchProcessHistory cfg net p =
      ⟨[], some e, sentSteps cfg (historyRequest cfg p) ++
          [Step.statusCheck resp.StatusCode, Step.readAll, Step.bodyClose]⟩ := by
  simp only [historyRequest] at h1 h2
  have h3' : resp.StatusCode = StatusOK := h3
  simp only [fetchProcessHistory, Sprintf_historyURL, historyRequest, sentSteps, h1, h2, h3', h4,
    ne_eq, not_true_eq_false, if_false]

/-- `fetchProcessHistory` when the body of a 200 response has been read. -/
theorem fetchProcessHistory_of_body (cfg : Config) (net : Net) (p : String) (resp : Response)
    (h1 : net.newRequest "GET" (historyRequest cfg p).URL = none)
    (h2 : net.clientDo (historyRequest cfg p) = Except.ok resp)
    (h3 : resp.StatusCode = 200) (h4 : resp.readErr = none) :
    fetchProcessHistory cfg net p =
      ⟨match (unmarshalActivities resp.body).2 with
        | some _ => []
        | none => (unmarshalActivities resp.body).1,
       (unmarshalActivities resp.body).2,
       sentSteps cfg (historyRequest cfg p) ++
          [Step.statusCheck resp.StatusCode, Step.readAll, Step.unmarshal resp.body,
            Step.bodyClose]⟩ := by
  simp only [historyRequest] at h1 h2
  have h3' : resp.StatusCode = StatusOK := h3
  simp only [fetchProcessHistory, Sprintf_historyURL, historyRequest, sentSteps, h1, h2, h3', h4,
    ne_eq, not_true_eq_false, if_false]
  rcases hu : unmarshalActivities resp.body with ⟨recs, _ | e⟩ <;> simp

/-- Every run of `fetchProcesses` takes one of its five paths. -/
theorem fetchProcesses_paths (cfg : Config) (net : Net) :
    (∃ e, net.newRequest "GET" (processesRequest cfg).URL = some e ∧
      fetchProcesses cfg net = ⟨[], some e, [Step.newRequest "GET" (processesRequest cfg).URL]⟩) ∨
    (net.newRequest "GET" (processesRequest cfg).URL = none ∧
      ((∃ e, net.clientDo (processesRequest cfg) = Except.error e ∧
        fetchProcesses cfg net = ⟨[], some e, sentSteps cfg (processesRequest cfg)⟩) ∨
      (∃ resp, net.clientDo (processesRequest cfg) = Except.ok resp ∧
        ((resp.StatusCode ≠ 200 ∧ fetchProcesses cfg net =
            ⟨[], some (GoError.errorString
                ("status " ++ toString resp.StatusCode ++ ": " ++ resp.body)),
              sentSteps cfg (processesRequest cfg) ++
                [Step.statusCheck resp.StatusCode, Step.readAll, Step.bodyClose]⟩) ∨
        (resp.StatusCode = 200 ∧
          ((∃ e, resp.readErr = some e ∧ fetchProcesses cfg net =
              ⟨[], some e, sentSteps cfg (processesRequest cfg) ++
                [Step.statusCheck resp.StatusCode, Step.readAll, Step.bodyClose]⟩) ∨
          (resp.readErr = none ∧ fetchProcesses cfg net =
              ⟨match (unmarshalProcesses resp.body).2 with
                | some _ => []
                | none => (unmarshalProcesses resp.body).1,
               (unmarshalProcesses resp.body).2,
               sentSteps cfg (processesRequest cfg) ++
                [Step.statusCheck resp.StatusCode, Step.readAll, Step.unmarshal resp.body,
                  Step.bodyClose]⟩))))))) := by
  rcases h1 : net.newRequest "GET" (processesRequest cfg).URL with _ | e
  · right
    refine ⟨rfl, ?_⟩
    rcases h2 : net.clientDo (processesRequest cfg) with e | resp
    · exact Or.inl ⟨e, rfl, fetchProcesses_of_do_error cfg net e h1 h2⟩
    · right
      refine ⟨resp, rfl, ?_⟩
      by_cases h3 : resp.StatusCode = 200
      · right
        refine ⟨h3, ?_⟩
        rcases h4 : resp.readErr with _ | e
        · exact Or.inr ⟨rfl, fetchProcesses_of_body cfg net resp h1 h2 h3 h4⟩
        · exact Or.inl ⟨e, rfl, fetchProcesses_of_read_error cfg net resp e h1 h2 h3 h4⟩
      · exact Or.inl ⟨h3, fetchProcesses_of_status cfg net resp h1 h2 h3⟩
  · exact Or.inl ⟨e, rfl, fetchProcesses_of_newRequest_error cfg net e h1⟩

/-- Every run of `fetchProcessHistory` takes one of its five paths. -/
theorem fetchProcessHistory_paths (cfg : Config) (net : Net) (p : String) :
    (∃ e, net.newRequest "GET" (historyRequest cfg p).URL = some e ∧
      fetchProcessHistory cfg net p =
        ⟨[], some e, [Step.newRequest "GET" (historyRequest cfg p).URL]⟩) ∨
    (net.newRequest "GET" (historyRequest cfg p).URL = none ∧
      ((∃ e, net.clientDo (historyRequest cfg p) = Except.error e ∧
        fetchProcessHistory cfg net p = ⟨[], some e, sentSteps cfg (historyRequest cfg p)⟩) ∨
      (∃ resp, net.clientDo (historyRequest cfg p) = Except.ok resp ∧
        ((resp.StatusCode ≠ 200 ∧ fetchProcessHistory cfg net p =
            ⟨[], some (GoError.errorString
                ("status " ++ toString resp.StatusCode ++ ": " ++ resp.body)),
              sentSteps cfg (historyRequest cfg p) ++
                [Step.statusCheck resp.StatusCode, Step.readAll, Step.bodyClose]⟩) ∨
        (resp.StatusCode = 200 ∧
          ((∃ e, resp.readErr = some e ∧ fetchProcessHistory cfg net p =
              ⟨[], some e, sentSteps cfg (historyRequest cfg p) ++
                [Step.statusCheck resp.StatusCode, Step.readAll, Step.bodyClose]⟩) ∨
          (resp.readErr = none ∧ fetchProcessHistory cfg net p =
              ⟨match (unmarshalActivities resp.body).2 with
                | some _ => []
                | none => (unmarshalActivities resp.body).1,
               (unmarshalActivities resp.body).2,
               sentSteps cfg (historyRequest cfg p) ++
                [Step.statusCheck resp.StatusCode, Step.readAll, Step.unmarshal resp.body,
                  Step.bodyClose]⟩))))))) := by
  rcases h1 : net.newRequest "GET" (historyRequest cfg p).URL with _ | e
  · right
    refine ⟨rfl, ?_⟩
    rcases h2 : net.clientDo (historyRequest cfg p) with e | resp
    · exact Or.inl ⟨e, rfl, fetchProcessHistory_of_do_error cfg net p e h1 h2⟩
    · right
      refine ⟨resp, rfl, ?_⟩
      by_cases h3 : resp.StatusCode = 200
      · right
        refine ⟨h3, ?_⟩
        rcases h4 : resp.readErr with _ | e
        · exact Or.inr ⟨rfl, fetchProcessHistory_of_body cfg net p resp h1 h2 h3 h4⟩
        · exact Or.inl ⟨e, rfl, fetchProcessHistory_of_read_error cfg net p resp e h1 h2 h3 h4⟩
      · exact Or.inl ⟨h3, fetchProcessHistory_of_status cfg net p resp h1 h2 h3⟩
  · exact Or.inl ⟨e, rfl, fetchProcessHistory_of_newRequest_error cfg net p e h1⟩

/-! ## Decoding facts used below -/

/-- No text that ends in `ms` is the text `N/A`. -/
theorem append_ms_ne_NA (t : String) : t ++ "ms" ≠ "N/A" := by
  intro h
  have hd : (t ++ "ms").data.reverse = ("N/A" : String).data.reverse := by rw [h]
  simp [String.data_append] at hd

/-- The body `[]` decodes to no activities and no error. -/
theorem unmarshalActivities_empty : unmarshalActivities "[]" = ([], none) := by
  decide!

/-- When `json.Unmarshal` into a slice returns no error, the text is `null` and the
slice stays empty, or the text is an array and the slice holds its elements
decoded one by one, in order, none with a type error. -/
theorem unmarshalSlice_ok {α : Type} (decodeElem : JSON → α × Bool) (data : String)
    (h : (unmarshalSlice decodeElem data).2 = none) :
    (parseJSON data = some JSON.null ∧ (unmarshalSlice decodeElem data).1 = []) ∨
    (∃ elems, parseJSON data = some (JSON.array elems) ∧
      (unmarshalSlice decodeElem data).1 = elems.map (fun v => (decodeElem v).1) ∧
      ∀ v ∈ elems, (decodeElem v).2 = false) := by
  unfold unmarshalSlice at h ⊢
  rcases hp : parseJSON data with _ | v
  · simp [hp] at h
  · cases v with
    | null => simp
    | array elems =>
      right
      refine ⟨elems, rfl, ?_, ?_⟩
      · simp [List.map_map, Function.comp_def]
      · intro v hv
        simp only [hp] at h
        by_contra hbad
        have : (elems.map decodeElem).any Prod.snd = true := by
          simp only [List.any_eq_true, List.mem_map]
          exact ⟨decodeElem v, ⟨v, hv, rfl⟩, by simpa using hbad⟩
        simp [this] at h
    | bool b => simp [hp] at h
    | number l => simp [hp] at h
    | string t => simp [hp] at h
    | object ms => simp [hp] at h

/-- A key is stored into `DurationInMillis` exactly when it equals `durationInMillis` up to case
folding. -/
theorem findField_durationInMillis_iff (k : String) :
    findField processFields k = some ProcessField.durationInMillis
      ↔ foldName k = foldName "durationInMillis" := by
  have e0 : foldName "id" ≠ foldName "durationInMillis" := by decide
  have e1 : foldName "state" ≠ foldName "durationInMillis" := by decide
  have e2 : foldName "startTime" ≠ foldName "durationInMillis" := by decide
  have e4 : foldName "processDefinitionVersion" ≠ foldName "durationInMillis" := by decide
  have e5 : foldName "businessKey" ≠ foldName "durationInMillis" := by decide
  have e6 : foldName "deleteReason" ≠ foldName "durationInMillis" := by decide
  unfold findField processFields
  simp only [List.find?]
  by_cases h0 : ("id" == k) = true
  · have hk := eq_of_beq h0
    subst hk
    exact ⟨fun h => absurd h (by decide), fun h => absurd h e0⟩
  have b0 : ("id" == k) = false := by simpa using h0
  by_cases h1 : ("state" == k) = true
  · have hk := eq_of_beq h1
    subst hk
    exact ⟨fun h => absurd h (by decide), fun h => absurd h e1⟩
  have b1 : ("state" == k) = false := by simpa using h1
  by_cases h2 : ("startTime" == k) = true
  · have hk := eq_of_beq h2
    subst hk
    exact ⟨fun h => absurd h (by decide), fun h => absurd h e2⟩
  have b2 : ("startTime" == k) = false := by simpa using h2
  by_cases h3 : ("durationInMillis" == k) = true
  · have hk := eq_of_beq h3
    subst hk
    exact ⟨fun _ => rfl, fun _ => by decide⟩
  have b3 : ("durationInMillis" == k) = false := by simpa using h3
  by_cases h4 : ("processDefinitionVersion" == k) = true
  · have hk := eq_of_beq h4
    subst hk
    exact ⟨fun h => absurd h (by decide), fun h => absurd h e4⟩
  have b4 : ("processDefinitionVersion" == k) = false := by simpa using h4
  by_cases h5 : ("businessKey" == k) = true
  · have hk := eq_of_beq h5
    subst hk
    exact ⟨fun h => absurd h (by decide), fun h => absurd h e5⟩
  have b5 : ("businessKey" == k) = false := by simpa using h5
  by_cases h6 : ("deleteReason" == k) = true
  · have hk := eq_of_beq h6
    subst hk
    exact ⟨fun h => absurd h (by decide), fun h => absurd h e6⟩
  have b6 : ("deleteReason" == k) = false := by simpa using h6
  simp only [b0, b1, b2, b3, b4, b5, b6]
  by_cases g0 : (foldName "id" == foldName k) = true
  · have hk := eq_of_beq g0
    simp only [g0]
    exact ⟨fun h => absurd h (by decide), fun h => absurd (hk.trans h) e0⟩
  have c0 : (foldName "id" == foldName k) = false := by simpa using g0
  by_cases g1 : (foldName "state" == foldName k) = true
  · have hk := eq_of_beq g1
    simp only [c0, g1]
    exact ⟨fun h => absurd h (by decide), fun h => absurd (hk.trans h) e1⟩
  have c1 : (foldName "state" == foldName k) = false := by simpa using g1
  by_cases g2 : (foldName "startTime" == foldName k) = true
  · have hk := eq_of_beq g2
    simp only [c0, c1, g2]
    exact ⟨fun h => absurd h (by decide), fun h => absurd (hk.trans h) e2⟩
  have c2 : (foldName "startTime" == foldName k) = false := by simpa using g2
  by_cases g3 : (foldName "durationInMillis" == foldName k) = true
  · have hk := eq_of_beq g3
    simp only [c0, c1, c2, g3]
    exact ⟨fun _ => hk.symm, fun _ => trivial⟩
  have c3 : (foldName "durationInMillis" == foldName k) = false := by simpa using g3
  by_cases g4 : (foldName "processDefinitionVersion" == foldName k) = true
  · have hk := eq_of_beq g4
    simp only [c0, c1, c2, c3, g4]
    exact ⟨fun h => absurd h (by decide), fun h => absurd (hk.trans h) e4⟩
  have c4 : (foldName "processDefinitionVersion" == foldName k) = false := by simpa using g4
  by_cases g5 : (foldName "businessKey" == foldName k) = true
  · have hk := eq_of_beq g5
    simp only [c0, c1, c2, c3, c4, g5]
    exact ⟨fun h => absurd h (by decide), fun h => absurd (hk.trans h) e5⟩
  have c5 : (foldName "businessKey" == foldName k) = false := by simpa using g5
  by_cases g6 : (foldName "deleteReason" == foldName k) = true
  · have hk := eq_of_beq g6
    simp only [c0, c1, c2, c3, c4, c5, g6]
    exact ⟨fun h => absurd h (by decide), fun h => absurd (hk.trans h) e6⟩
  have c6 : (foldName "deleteReason" == foldName k) = false := by simpa using g6
  simp only [c0, c1, c2, c3, c4, c5, c6]
  exact ⟨fun h => absurd h (by decide), fun h => absurd h.symm (by simpa using g3)⟩

/-- A key is stored into `BusinessKey` exactly when it equals `businessKey` up to case
folding. -/
theorem findField_businessKey_iff (k : String) :
    findField processFields k = some ProcessField.businessKey
      ↔ foldName k = foldName "businessKey" := by
  have e0 : foldName "id" ≠ foldName "businessKey" := by decide
  have e1 : foldName "state" ≠ foldName "businessKey" := by decide
  have e2 : foldName "startTime" ≠ foldName "businessKey" := by decide
  have e3 : foldName "durationInMillis" ≠ foldName "businessKey" := by decide
  have e4 : foldName "processDefinitionVersion" ≠ foldName "businessKey" := by decide
  have e6 : foldName "deleteReason" ≠ foldName "businessKey" := by decide
  unfold findField processFields
  simp only [List.find?]
  by_cases h0 : ("id" == k) = true
  · have hk := eq_of_beq h0
    subst hk
    exact ⟨fun h => absurd h (by decide), fun h => absurd h e0⟩
  have b0 : ("id" == k) = false := by simpa using h0
  by_cases h1 : ("state" == k) = true
  · have hk := eq_of_beq h1
    subst hk
    exact ⟨fun h => absurd h (by decide), fun h => absurd h e1⟩
  have b1 : ("state" == k) = false := by simpa using h1
  by_cases h2 : ("startTime" == k) = true
  · have hk := eq_of_beq h2
    subst hk
    exact ⟨fun h => absurd h (by decide), fun h => absurd h e2⟩
  have b2 : ("startTime" == k) = false := by simpa using h2
  by_cases h3 : ("durationInMillis" == k) = true
  · have hk := eq_of_beq h3
    subst hk
    exact ⟨fun h => absurd h (by decide), fun h => absurd h e3⟩
  have b3 : ("durationInMillis" == k) = false := by simpa using h3
  by_cases h4 : ("processDefinitionVersion" == k) = true
  · have hk := eq_of_beq h4
    subst hk
    exact ⟨fun h => absurd h (by decide), fun h => absurd h e4⟩
  have b4 : ("processDefinitionVersion" == k) = false := by simpa using h4
  by_cases h5 : ("businessKey" == k) = true
  · have hk := eq_of_beq h5
    subst hk
    exact ⟨fun _ => rfl, fun _ => by decide⟩
  have b5 : ("businessKey" == k) = false := by simpa using h5
  by_cases h6 : ("deleteReason" == k) = true
  · have hk := eq_of_beq h6
    subst hk
    exact ⟨fun h => absurd h (by decide), fun h => absurd h e6⟩
  have b6 : ("deleteReason" == k) = false := by simpa using h6
  simp only [b0, b1, b2, b3, b4, b5, b6]
  by_cases g0 : (foldName "id" == foldName k) = true
  · have hk := eq_of_beq g0
    simp only [g0]
    exact ⟨fun h => absurd h (by decide), fun h => absurd (hk.trans h) e0⟩
  have c0 : (foldName "id" == foldName k) = false := by simpa using g0
  by_cases g1 : (foldName "state" == foldName k) = true
  · have hk := eq_of_beq g1
    simp only [c0, g1]
    exact ⟨fun h => absurd h (by decide), fun h => absurd (hk.trans h) e1⟩
  have c1 : (foldName "state" == foldName k) = false := by simpa using g1
  by_cases g2 : (foldName "startTime" == foldName k) = true
  · have hk := eq_of_beq g2
    simp only [c0, c1, g2]
    exact ⟨fun h => absurd h (by decide), fun h => absurd (hk.trans h) e2⟩
  have c2 : (foldName "startTime" == foldName k) = false := by simpa using g2
  by_cases g3 : (foldName "durationInMillis" == foldName k) = true
  · have hk := eq_of_beq g3
    simp only [c0, c1, c2, g3]
    exact ⟨fun h => absurd h (by decide), fun h => absurd (hk.trans h) e3⟩
  have c3 : (foldName "durationInMillis" == foldName k) = false := by simpa using g3
  by_cases g4 : (foldName "processDefinitionVersion" == foldName k) = true
  · have hk := eq_of_beq g4
    simp only [c0, c1, c2, c3, g4]
    exact ⟨fun h => absurd h (by decide), fun h => absurd (hk.trans h) e4⟩
  have c4 : (foldName "processDefinitionVersion" == foldName k) = false := by simpa using g4
  by_cases g5 : (foldName "businessKey" == foldName k) = true
  · have hk := eq_of_beq g5
    simp only [c0, c1, c2, c3, c4, g5]
    exact ⟨fun _ => hk.symm, fun _ => trivial⟩
  have c5 : (foldName "businessKey" == foldName k) = false := by simpa using g5
  by_cases g6 : (foldName "deleteReason" == foldName k) = true
  · have hk := eq_of_beq g6
    simp only [c0, c1, c2, c3, c4, c5, g6]
    exact ⟨fun h => absurd h (by decide), fun h => absurd (hk.trans h) e6⟩
  have c6 : (foldName "deleteReason" == foldName k) = false := by simpa using g6
  simp only [c0, c1, c2, c3, c4, c5, c6]
  exact ⟨fun h => absurd h (by decide), fun h => absurd h.symm (by simpa using g5)⟩

/-- A key is stored into `DeleteReason` exactly when it equals `deleteReason` up to case
folding. -/
theorem findField_deleteReason_iff (k : String) :
    findField processFields k = some ProcessField.deleteReason
      ↔ foldName k = foldName "deleteReason" := by
  have e0 : foldName "id" ≠ foldName "deleteReason" := by decide
  have e1 : foldName "state" ≠ foldName "deleteReason" := by decide
  have e2 : foldName "startTime" ≠ foldName "deleteReason" := by decide
  have e3 : foldName "durationInMillis" ≠ foldName "deleteReason" := by decide
  have e4 : foldName "processDefinitionVersion" ≠ foldName "deleteReason" := by decide
  have e5 : foldName "businessKey" ≠ foldName "deleteReason" := by decide
  unfold findField processFields
  simp only [List.find?]
  by_cases h0 : ("id" == k) = true
  · have hk := eq_of_beq h0
    subst hk
    exact ⟨fun h => absurd h (by decide), fun h => absurd h e0⟩
  have b0 : ("id" == k) = false := by simpa using h0
  by_cases h1 : ("state" == k) = true
  · have hk := eq_of_beq h1
    subst hk
    exact ⟨fun h => absurd h (by decide), fun h => absurd h e1⟩
  have b1 : ("state" == k) = false := by simpa using h1
  by_cases h2 : ("startTime" == k) = true
  · have hk := eq_of_beq h2
    subst hk
    exact ⟨fun h => absurd h (by decide), fun h => absurd h e2⟩
  have b2 : ("startTime" == k) = false := by simpa using h2
  by_cases h3 : ("durationInMillis" == k) = true
  · have hk := eq_of_beq h3
    subst hk
    exact ⟨fun h => absurd h (by decide), fun h => absurd h e3⟩
  have b3 : ("durationInMillis" == k) = false := by simpa using h3
  by_cases h4 : ("processDefinitionVersion" == k) = true
  · have hk := eq_of_beq h4
    subst hk
    exact ⟨fun h => absurd h (by decide), fun h => absurd h e4⟩
  have b4 : ("processDefinitionVersion" == k) = false := by simpa using h4
  by_cases h5 : ("businessKey" == k) = true
  · have hk := eq_of_beq h5
    subst hk
    exact ⟨fun h => absurd h (by decide), fun h => absurd h e5⟩
  have b5 : ("businessKey" == k) = false := by simpa using h5
  by_cases h6 : ("deleteReason" == k) = true
  · have hk := eq_of_beq h6
    subst hk
    exact ⟨fun _ => rfl, fun _ => by decide⟩
  have b6 : ("deleteReason" == k) = false := by simpa using h6
  simp only [b0, b1, b2, b3, b4, b5, b6]
  by_cases g0 : (foldName "id" == foldName k) = true
  · have hk := eq_of_beq g0
    simp only [g0]
    exact ⟨fun h => absurd h (by decide), fun h => absurd (hk.trans h) e0⟩
  have c0 : (foldName "id" == foldName k) = false := by simpa using g0
  by_cases g1 : (foldName "state" == foldName k) = true
  · have hk := eq_of_beq g1
    simp only [c0, g1]
    exact ⟨fun h => absurd h (by decide), fun h => absurd (hk.trans h) e1⟩
  have c1 : (foldName "state" == foldName k) = false := by simpa using g1
  by_cases g2 : (foldName "startTime" == foldName k) = true
  · have hk := eq_of_beq g2
    simp only [c0, c1, g2]
    exact ⟨fun h => absurd h (by decide), fun h => absurd (hk.trans h) e2⟩
  have c2 : (foldName "startTime" == foldName k) = false := by simpa using g2
  by_cases g3 : (foldName "durationInMillis" == foldName k) = true
  · have hk := eq_of_beq g3
    simp only [c0, c1, c2, g3]
    exact ⟨fun h => absurd h (by decide), fun h => absurd (hk.trans h) e3⟩
  have c3 : (foldName "durationInMillis" == foldName k) = false := by simpa using g3
  by_cases g4 : (foldName "processDefinitionVersion" == foldName k) = true
  · have hk := eq_of_beq g4
    simp only [c0, c1, c2, c3, g4]
    exact ⟨fun h => absurd h (by decide), fun h => absurd (hk.trans h) e4⟩
  have c4 : (foldName "processDefinitionVersion" == foldName k) = false := by simpa using g4
  by_cases g5 : (foldName "businessKey" == foldName k) = true
  · have hk := eq_of_beq g5
    simp only [c0, c1, c2, c3, c4, g5]
    exact ⟨fun h => absurd h (by decide), fun h => absurd (hk.trans h) e5⟩
  have c5 : (foldName "businessKey" == foldName k) = false := by simpa using g5
  by_cases g6 : (foldName "deleteReason" == foldName k) = true
  · have hk := eq_of_beq g6
    simp only [c0, c1, c2, c3, c4, c5, g6]
    exact ⟨fun _ => hk.symm, fun _ => trivial⟩
  have c6 : (foldName "deleteReason" == foldName k) = false := by simpa using g6
  simp only [c0, c1, c2, c3, c4, c5, c6]
  exact ⟨fun h => absurd h (by decide), fun h => absurd h.symm (by simpa using g6)⟩

/-- A member whose key is stored into another field, or into none, leaves the
duration as it is. -/
theorem member_other_duration (acc : ProcessInstance × Bool) (m : String × JSON)
    (h : findField processFields m.1 ≠ some ProcessField.durationInMillis) :
    (ProcessInstance.member acc m).1.DurationInMillis = acc.1.DurationInMillis := by
  unfold ProcessInstance.member
  rcases hf : findField processFields m.1 with _ | f
  · rfl
  · cases f <;> first | rfl | exact absurd hf h

/-- A member whose key is stored into the duration stores its value there. -/
theorem member_this_duration (acc : ProcessInstance × Bool) (m : String × JSON)
    (h : findField processFields m.1 = some ProcessField.durationInMillis) :
    (ProcessInstance.member acc m).1.DurationInMillis
      = (storeIntPtr acc.1.DurationInMillis m.2).1 := by
  unfold ProcessInstance.member
  rw [h]
  rfl

/-- A member whose key is stored into another field, or into none, leaves the
business key as it is. -/
theorem member_other_businessKey (acc : ProcessInstance × Bool) (m : String × JSON)
    (h : findField processFields m.1 ≠ some ProcessField.businessKey) :
    (ProcessInstance.member acc m).1.BusinessKey = acc.1.BusinessKey := by
  unfold ProcessInstance.member
  rcases hf : findField processFields m.1 with _ | f
  · rfl
  · cases f <;> first | rfl | exact absurd hf h

/-- A member whose key is stored into the business key stores its value there. -/
theorem member_this_businessKey (acc : ProcessInstance × Bool) (m : String × JSON)
    (h : findField processFields m.1 = some ProcessField.businessKey) :
    (ProcessInstance.member acc m).1.BusinessKey = (storeStringPtr acc.1.BusinessKey m.2).1 := by
  unfold ProcessInstance.member
  rw [h]
  rfl

/-- A member whose key is stored into another field, or into none, leaves the
delete reason as it is. -/
theorem member_other_deleteReason (acc : ProcessInstance × Bool) (m : String × JSON)
    (h : findField processFields m.1 ≠ some ProcessField.deleteReason) :
    (ProcessInstance.member acc m).1.DeleteReason = acc.1.DeleteReason := by
  unfold ProcessInstance.member
  rcases hf : findField processFields m.1 with _ | f
  · rfl
  · cases f <;> first | rfl | exact absurd hf h

/-- A member whose key is stored into the delete reason stores its value there. -/
theorem member_this_deleteReason (acc : ProcessInstance × Bool) (m : String × JSON)
    (h : findField processFields m.1 = some ProcessField.deleteReason) :
    (ProcessInstance.member acc m).1.DeleteReason = (storeStringPtr acc.1.DeleteReason m.2).1 := by
  unfold ProcessInstance.member
  rw [h]
  rfl

/-- The duration after all members of an object are stored is decided by the value
the object holds for it: untouched when it holds none, `nil` for `null`, the number
for an integer literal in range. -/
theorem foldl_member_duration (members : List (String × JSON)) :
    ∀ acc : ProcessInstance × Bool,
      (memberValue "durationInMillis" members = none →
        (members.foldl ProcessInstance.member acc).1.DurationInMillis
          = acc.1.DurationInMillis) ∧
      (memberValue "durationInMillis" members = some JSON.null →
        (members.foldl ProcessInstance.member acc).1.DurationInMillis = none) ∧
      (∀ l n, memberValue "durationInMillis" members = some (JSON.number l) →
        parseInt64 l = some n →
        (members.foldl ProcessInstance.member acc).1.DurationInMillis = some n) := by
  induction members with
  | nil =>
    intro acc
    simp [memberValue]
  | cons m rest ih =>
    intro acc
    have ih1 := ih (ProcessInstance.member acc m)
    simp only [List.foldl_cons, memberValue]
    rcases hk : memberValue "durationInMillis" rest with _ | v
    · by_cases hk2 : foldName m.1 = foldName "durationInMillis"
      · have hm := (findField_durationInMillis_iff m.1).mpr hk2
        simp only [hk2, if_true]
        refine ⟨fun h => by simp at h, ?_, ?_⟩
        · intro hv
          rw [(ih1).1 hk, member_this_duration acc m hm]
          have : m.2 = JSON.null := by simpa using hv
          rw [this]
          rfl
        · intro l n hv hn
          rw [(ih1).1 hk, member_this_duration acc m hm]
          have : m.2 = JSON.number l := by simpa using hv
          rw [this]
          simp [storeIntPtr, storeInt, hn]
      · simp only [hk2, if_false]
        refine ⟨fun _ => ?_, fun h => by simp at h, fun l n h => by simp at h⟩
        rw [(ih1).1 hk, member_other_duration acc m (fun hf => hk2 ((findField_durationInMillis_iff m.1).mp hf))]
    · refine ⟨fun h => by simp at h, ?_, ?_⟩
      · intro hv
        have : v = JSON.null := by simpa using hv
        exact (ih1).2.1 (by rw [hk, this])
      · intro l n hv hn
        have : v = JSON.number l := by simpa using hv
        exact (ih1).2.2 l n (by rw [hk, this]) hn

/-- The business key after all members of an object are stored is decided by the value
the object holds for it: untouched when it holds none, `nil` for `null`, the string
for a string. -/
theorem foldl_member_businessKey (members : List (String × JSON)) :
    ∀ acc : ProcessInstance × Bool,
      (memberValue "businessKey" members = none →
        (members.foldl ProcessInstance.member acc).1.BusinessKey = acc.1.BusinessKey) ∧
      (memberValue "businessKey" members = some JSON.null →
        (members.foldl ProcessInstance.member acc).1.BusinessKey = none) ∧
      (∀ t, memberValue "businessKey" members = some (JSON.string t) →
        (members.foldl ProcessInstance.member acc).1.BusinessKey = some t) := by
  induction members with
  | nil =>
    intro acc
    simp [memberValue]
  | cons m rest ih =>
    intro acc
    have ih1 := ih (ProcessInstance.member acc m)
    simp only [List.foldl_cons, memberValue]
    rcases hk : memberValue "businessKey" rest with _ | v
    · by_cases hk2 : foldName m.1 = foldName "businessKey"
      · have hm := (findField_businessKey_iff m.1).mpr hk2
        simp only [hk2, if_true]
        refine ⟨fun h => by simp at h, ?_, ?_⟩
        · intro hv
          rw [(ih1).1 hk, member_this_businessKey acc m hm]
          have : m.2 = JSON.null := by simpa using hv
          rw [this]
          rfl
        · intro t hv
          rw [(ih1).1 hk, member_this_businessKey acc m hm]
          have : m.2 = JSON.string t := by simpa using hv
          rw [this]
          rfl
      · simp only [hk2, if_false]
        refine ⟨fun _ => ?_, fun h => by simp at h, fun t h => by simp at h⟩
        rw [(ih1).1 hk, member_other_businessKey acc m (fun hf => hk2 ((findField_businessKey_iff m.1).mp hf))]
    · refine ⟨fun h => by simp at h, ?_, ?_⟩
      · intro hv
        have : v = JSON.null := by simpa using hv
        exact (ih1).2.1 (by rw [hk, this])
      · intro t hv
        have : v = JSON.string t := by simpa using hv
        exact (ih1).2.2 t (by rw [hk, this])

/-- The delete reason after all members of an object are stored is decided by the value
the object holds for it: untouched when it holds none, `nil` for `null`, the string
for a string. -/
theorem foldl_member_deleteReason (members : List (String × JSON)) :
    ∀ acc : ProcessInstance × Bool,
      (memberValue "deleteReason" members = none →
        (members.foldl ProcessInstance.member acc).1.DeleteReason = acc.1.DeleteReason) ∧
      (memberValue "deleteReason" members = some JSON.null →
        (members.foldl ProcessInstance.member acc).1.DeleteReason = none) ∧
      (∀ t, memberValue "deleteReason" members = some (JSON.string t) →
        (members.foldl ProcessInstance.member acc).1.DeleteReason = some t) := by
  induction members with
  | nil =>
    intro acc
    simp [memberValue]
  | cons m rest ih =>
    intro acc
    have ih1 := ih (ProcessInstance.member acc m)
    simp only [List.foldl_cons, memberValue]
    rcases hk : memberValue "deleteReason" rest with _ | v
    · by_cases hk2 : foldName m.1 = foldName "deleteReason"
      · have hm := (findField_deleteReason_iff m.1).mpr hk2
        simp only [hk2, if_true]
        refine ⟨fun h => by simp at h, ?_, ?_⟩
        · intro hv
          rw [(ih1).1 hk, member_this_deleteReason acc m hm]
          have : m.2 = JSON.null := by simpa using hv
          rw [this]
          rfl
        · intro t hv
          rw [(ih1).1 hk, member_this_deleteReason acc m hm]
          have : m.2 = JSON.string t := by simpa using hv
          rw [this]
          rfl
      · simp only [hk2, if_false]
        refine ⟨fun _ => ?_, fun h => by simp at h, fun t h => by simp at h⟩
        rw [(ih1).1 hk, member_other_deleteReason acc m (fun hf => hk2 ((findField_deleteReason_iff m.1).mp hf))]
    · refine ⟨fun h => by simp at h, ?_, ?_⟩
      · intro hv
        have : v = JSON.null := by simpa using hv
        exact (ih1).2.1 (by rw [hk, this])
      · intro t hv
        have : v = JSON.string t := by simpa using hv
        exact (ih1).2.2 t (by rw [hk, this])

/-- An object holds no value under a name exactly when no member's key folds to
the name's folded text. -/
theorem memberValue_eq_none_iff (name : String) (members : List (String × JSON)) :
    memberValue name members = none ↔ ∀ m ∈ members, foldName m.1 ≠ foldName name := by
  induction members with
  | nil => simp [memberValue]
  | cons m rest ih =>
    simp only [memberValue, List.mem_cons, forall_eq_or_imp]
    rcases hk : memberValue name rest with _ | v
    · have hrest := ih.mp hk
      by_cases hm : foldName m.1 = foldName name
      · simp [hm]
      · simp only [hm, if_false, ne_eq, not_false_eq_true, true_and, true_iff]
        exact hrest
    · have hrest : ¬ ∀ m ∈ rest, foldName m.1 ≠ foldName name := fun h => by
        have := ih.mpr h
        rw [hk] at this
        exact absurd this (by simp)
      constructor
      · intro h
        exact absurd h (by simp)
      · intro h
        exact absurd h.2 hrest

/-! ## The claims -/

/-- C10. `formatDuration` renders `N/A` exactly for an absent duration: absent gives
`N/A`; every present duration `n` gives `n` in decimal followed by `ms`, which is
never `N/A`; zero gives `0ms`. -/
theorem formatDuration_NA_only_for_absent :
    formatDuration none = "N/A" ∧
    (∀ n : Int, formatDuration (some n) = toString n ++ "ms" ∧ formatDuration (some n) ≠ "N/A") ∧
    formatDuration (some 0) = "0ms" ∧
    (∀ ms : Option Int, formatDuration ms = "N/A" ↔ ms = none) := by
  have key : ∀ n : Int, formatDuration (some n) = toString n ++ "ms" := fun n => Sprintf_ms n
  refine ⟨rfl, fun n => ⟨key n, ?_⟩, ?_, ?_⟩
  · rw [key]
    exact append_ms_ne_NA _
  · decide!
  · intro ms
    cases ms with
    | none => simp [formatDuration]
    | some n =>
      have := append_ms_ne_NA (toString n)
      simp [key, this]

/-- C1. For both fetches: when the remote answers with a status code other than
200, the fetch returns no records and the error whose text is `status `, the code in
decimal, `: ` and the body exactly as it was read, whatever the body is. -/
theorem non200_gives_status_error (cfg : Config) (net : Net) (p : String) (resp : Response)
    (hs : resp.StatusCode ≠ 200) :
    (net.newRequest "GET" (processesRequest cfg).URL = none →
      net.clientDo (processesRequest cfg) = Except.ok resp →
      (fetchProcesses cfg net).records = [] ∧
      (fetchProcesses cfg net).err = some (GoError.errorString
        ("status " ++ toString resp.StatusCode ++ ": " ++ resp.body))) ∧
    (net.newRequest "GET" (historyRequest cfg p).URL = none →
      net.clientDo (historyRequest cfg p) = Except.ok resp →
      (fetchProcessHistory cfg net p).records = [] ∧
      (fetchProcessHistory cfg net p).err = some (GoError.errorString
        ("status " ++ toString resp.StatusCode ++ ": " ++ resp.body))) := by
  constructor
  · intro h1 h2
    rw [fetchProcesses_of_status cfg net resp h1 h2 hs]
    exact ⟨rfl, rfl⟩
  · intro h1 h2
    rw [fetchProcessHistory_of_status cfg net p resp h1 h2 hs]
    exact ⟨rfl, rfl⟩

/-- C1 at the spec's scenario (status 404, body `process engine not found`) and at
a status 500 whose body is a JSON array. -/
theorem non200_gives_status_error_witness :
    ((fetchProcesses defaultConfig (answering ⟨404, "process engine not found", none⟩)).records = [] ∧
      (fetchProcesses defaultConfig (answering ⟨404, "process engine not found", none⟩)).err
        = some (GoError.errorString "status 404: process engine not found")) ∧
    ((fetchProcessHistory defaultConfig (answering ⟨500, "[]", none⟩) "pi-1").records = [] ∧
      (fetchProcessHistory defaultConfig (answering ⟨500, "[]", none⟩) "pi-1").err
        = some (GoError.errorString "status 500: []")) :=
  ⟨(non200_gives_status_error defaultConfig (answering ⟨404, "process engine not found", none⟩)
      "pi-1" ⟨404, "process engine not found", none⟩ (by decide)).1 rfl rfl,
   (non200_gives_status_error defaultConfig (answering ⟨500, "[]", none⟩)
      "pi-1" ⟨500, "[]", none⟩ (by decide)).2 rfl rfl⟩

/-- C9. For both fetches: when `client.Do` fails with `e`, the fetch returns no
records and `e` itself, after these steps and no others: building the request,
setting the credentials, and one call of `client.Do`. So there is exactly one
attempt, and no status check, read or decoding. -/
theorem transport_failure_single_attempt (cfg : Config) (net : Net) (p : String) (e : GoError) :
    (net.newRequest "GET" (processesRequest cfg).URL = none →
      net.clientDo (processesRequest cfg) = Except.error e →
      (fetchProcesses cfg net).records = [] ∧ (fetchProcesses cfg net).err = some e ∧
      (fetchProcesses cfg net).trace =
        [Step.newRequest "GET" (processesRequest cfg).URL,
         Step.setBasicAuth cfg.camundaUser cfg.camundaPass,
         Step.clientDo (processesRequest cfg)] ∧
      ((fetchProcesses cfg net).trace.filter Step.isClientDo).length = 1 ∧
      (fetchProcesses cfg net).trace.filter Step.handlesResponse = []) ∧
    (net.newRequest "GET" (historyRequest cfg p).URL = none →
      net.clientDo (historyRequest cfg p) = Except.error e →
      (fetchProcessHistory cfg net p).records = [] ∧ (fetchProcessHistory cfg net p).err = some e ∧
      (fetchProcessHistory cfg net p).trace =
        [Step.newRequest "GET" (historyRequest cfg p).URL,
         Step.setBasicAuth cfg.camundaUser cfg.camundaPass,
         Step.clientDo (historyRequest cfg p)] ∧
      ((fetchProcessHistory cfg net p).trace.filter Step.isClientDo).length = 1 ∧
      (fetchProcessHistory cfg net p).trace.filter Step.handlesResponse = []) := by
  constructor
  · intro h1 h2
    rw [fetchProcesses_of_do_error cfg net e h1 h2]
    simp [sentSteps, Step.isClientDo, Step.handlesResponse]
  · intro h1 h2
    rw [fetchProcessHistory_of_do_error cfg net p e h1 h2]
    simp [sentSteps, Step.isClientDo, Step.handlesResponse]

/-- C9 at a transport that refuses the connection. -/
theorem transport_failure_single_attempt_witness :
    ((fetchProcesses defaultConfig (failing (GoError.external "connection refused"))).records = [] ∧
      (fetchProcesses defaultConfig (failing (GoError.external "connection refused"))).err
        = some (GoError.external "connection refused") ∧
      (fetchProcesses defaultConfig (failing (GoError.external "connection refused"))).trace =
        [Step.newRequest "GET" (processesRequest defaultConfig).URL,
         Step.setBasicAuth "demo" "demo",
         Step.clientDo (processesRequest defaultConfig)] ∧
      ((fetchProcesses defaultConfig
        (failing (GoError.external "connection refused"))).trace.filter Step.isClientDo).length = 1 ∧
      (fetchProcesses defaultConfig
        (failing (GoError.external "connection refused"))).trace.filter Step.handlesResponse = []) ∧
    ((fetchProcessHistory defaultConfig (failing (GoError.external "connection refused")) "pi-1").records = [] ∧
      (fetchProcessHistory defaultConfig (failing (GoError.external "connection refused")) "pi-1").err
        = some (GoError.external "connection refused") ∧
      (fetchProcessHistory defaultConfig (failing (GoError.external "connection refused")) "pi-1").trace =
        [Step.newRequest "GET" (historyRequest defaultConfig "pi-1").URL,
         Step.setBasicAuth "demo" "demo",
         Step.clientDo (historyRequest defaultConfig "pi-1")] ∧
      ((fetchProcessHistory defaultConfig
        (failing (GoError.external "connection refused")) "pi-1").trace.filter Step.isClientDo).length = 1 ∧
      (fetchProcessHistory defaultConfig
        (failing (GoError.external "connection refused")) "pi-1").trace.filter Step.handlesResponse = []) :=
  ⟨(transport_failure_single_attempt defaultConfig (failing (GoError.external "connection refused"))
      "pi-1" (GoError.external "connection refused")).1 rfl rfl,
   (transport_failure_single_attempt defaultConfig (failing (GoError.external "connection refused"))
      "pi-1" (GoError.external "connection refused")).2 rfl rfl⟩

/-- C8. When the remote answers status 200 with the body `[]`, `fetchProcessHistory`
returns an empty sequence of activities and no error, for every process-instance id. -/
theorem empty_history_is_success (cfg : Config) (net : Net) (p : String) (resp : Response)
    (h1 : net.newRequest "GET" (historyRequest cfg p).URL = none)
    (h2 : net.clientDo (historyRequest cfg p) = Except.ok resp)
    (hs : resp.StatusCode = 200) (hr : resp.readErr = none) (hb : resp.body = "[]") :
    (fetchProcessHistory cfg net p).records = [] ∧ (fetchProcessHistory cfg net p).err = none := by
  rw [fetchProcessHistory_of_body cfg net p resp h1 h2 hs hr, hb, unmarshalActivities_empty]
  exact ⟨rfl, rfl⟩

/-- C8 at the default configuration and the id `pi-1`. -/
theorem empty_history_is_success_witness :
    (fetchProcessHistory defaultConfig (answering ⟨200, "[]", none⟩) "pi-1").records = [] ∧
    (fetchProcessHistory defaultConfig (answering ⟨200, "[]", none⟩) "pi-1").err = none :=
  empty_history_is_success defaultConfig (answering ⟨200, "[]", none⟩) "pi-1" ⟨200, "[]", none⟩
    rfl rfl rfl rfl rfl

/-- C2. For both fetches: when a status-200 body fails to decode, with error `e`,
the fetch returns `e` and no records, whatever the decoder had stored before the
failure; and no run of either fetch returns both records and an error. -/
theorem decode_failure_returns_only_error (cfg : Config) (net : Net) (p : String)
    (resp : Response) (hs : resp.StatusCode = 200) (hr : resp.readErr = none) :
    (net.newRequest "GET" (processesRequest cfg).URL = none →
      net.clientDo (processesRequest cfg) = Except.ok resp →
      ∀ e, (unmarshalProcesses resp.body).2 = some e →
        (fetchProcesses cfg net).records = [] ∧ (fetchProcesses cfg net).err = some e) ∧
    (net.newRequest "GET" (historyRequest cfg p).URL = none →
      net.clientDo (historyRequest cfg p) = Except.ok resp →
      ∀ e, (unmarshalActivities resp.body).2 = some e →
        (fetchProcessHistory cfg net p).records = [] ∧
        (fetchProcessHistory cfg net p).err = some e) ∧
    ((fetchProcesses cfg net).err ≠ none → (fetchProcesses cfg net).records = []) ∧
    ((fetchProcessHistory cfg net p).err ≠ none → (fetchProcessHistory cfg net p).records = []) := by
  refine ⟨?_, ?_, ?_, ?_⟩
  · intro h1 h2 e he
    rw [fetchProcesses_of_body cfg net resp h1 h2 hs hr, he]
    exact ⟨rfl, rfl⟩
  · intro h1 h2 e he
    rw [fetchProcessHistory_of_body cfg net p resp h1 h2 hs hr, he]
    exact ⟨rfl, rfl⟩
  · intro hne
    rcases fetchProcesses_paths cfg net with ⟨e, -, h⟩ | ⟨-, ⟨e, -, h⟩ | ⟨r, -, ⟨-, h⟩ |
      ⟨-, ⟨e, -, h⟩ | ⟨-, h⟩⟩⟩⟩
    · rw [h]
    · rw [h]
    · rw [h]
    · rw [h]
    · rw [h] at hne ⊢
      rcases hu : (unmarshalProcesses r.body).2 with _ | e
      · simp [hu] at hne
      · rfl
  · intro hne
    rcases fetchProcessHistory_paths cfg net p with ⟨e, -, h⟩ | ⟨-, ⟨e, -, h⟩ | ⟨r, -, ⟨-, h⟩ |
      ⟨-, ⟨e, -, h⟩ | ⟨-, h⟩⟩⟩⟩
    · rw [h]
    · rw [h]
    · rw [h]
    · rw [h]
    · rw [h] at hne ⊢
      rcases hu : (unmarshalActivities r.body).2 with _ | e
      · simp [hu] at hne
      · rfl

/-- C2 at bodies whose second element is a number, where the decoder has stored two
elements and reports a type error, and at a body cut off after its first element:
the fetch returns the error and no records. -/
theorem decode_failure_returns_only_error_witness :
    unmarshalProcesses mistypedProcessesBody =
      ([⟨"pi-1", "", "", none, 0, none, none⟩, ProcessInstance.zero],
        some GoError.jsonUnmarshalTypeError) ∧
    ((fetchProcesses defaultConfig (answering ⟨200, mistypedProcessesBody, none⟩)).records = [] ∧
      (fetchProcesses defaultConfig (answering ⟨200, mistypedProcessesBody, none⟩)).err
        = some GoError.jsonUnmarshalTypeError) ∧
    unmarshalActivities mistypedActivitiesBody =
      ([⟨"Review", "", "", "", 0, false⟩, ActivityInstance.zero],
        some GoError.jsonUnmarshalTypeError) ∧
    ((fetchProcessHistory defaultConfig
        (answering ⟨200, mistypedActivitiesBody, none⟩) "pi-1").records = [] ∧
      (fetchProcessHistory defaultConfig (answering ⟨200, mistypedActivitiesBody, none⟩) "pi-1").err
        = some GoError.jsonUnmarshalTypeError) ∧
    ((fetchProcesses defaultConfig (answering ⟨200, truncatedBody, none⟩)).records = [] ∧
      (fetchProcesses defaultConfig (answering ⟨200, truncatedBody, none⟩)).err
        = some GoError.jsonSyntaxError) :=
  ⟨by decide!,
   (decode_failure_returns_only_error defaultConfig (answering ⟨200, mistypedProcessesBody, none⟩)
      "pi-1" ⟨200, mistypedProcessesBody, none⟩ rfl rfl).1 rfl rfl
      GoError.jsonUnmarshalTypeError (by decide!),
   by decide!,
   (decode_failure_returns_only_error defaultConfig (answering ⟨200, mistypedActivitiesBody, none⟩)
      "pi-1" ⟨200, mistypedActivitiesBody, none⟩ rfl rfl).2.1 rfl rfl
      GoError.jsonUnmarshalTypeError (by decide!),
   (decode_failure_returns_only_error defaultConfig (answering ⟨200, truncatedBody, none⟩)
      "pi-1" ⟨200, truncatedBody, none⟩ rfl rfl).1 rfl rfl
      GoError.jsonSyntaxError (by decide!)⟩

/-- C4, as the code has it. For every base URL `B` and every id `p`,
`fetchProcessHistory` builds the URL `B`, the path with `processInstanceId=`, `p`
exactly as given, and `&sortBy=startTime&sortOrder=asc`, and hands it to
`http.NewRequest`, with no escaping or check of its own; every request it hands to
`client.Do` has that URL. When `http.NewRequest` accepts the URL the one request is
sent, so for `p = x&maxResults=1` the URL carries `maxResults=1` as a further query
parameter; when `http.NewRequest` refuses it, `fetchProcessHistory` returns that
error and requests nothing. Of the URL, the remote receives what stands before the
first `#`: all of it when neither `B` nor `p` holds a `#`. -/
theorem history_url_interpolates_id_verbatim (cfg : Config) (net : Net) (p : String) :
    (fetchProcessHistory cfg net p).trace.filter Step.isNewRequest =
      [Step.newRequest "GET" (cfg.camundaBaseURL ++
        "/history/activity-instance?processInstanceId=" ++ p ++
        "&sortBy=startTime&sortOrder=asc")] ∧
    (∀ req, Step.clientDo req ∈ (fetchProcessHistory cfg net p).trace →
      req.Method = "GET" ∧
      req.URL = cfg.camundaBaseURL ++ "/history/activity-instance?processInstanceId=" ++ p ++
        "&sortBy=startTime&sortOrder=asc") ∧
    (net.newRequest "GET" (cfg.camundaBaseURL ++
        "/history/activity-instance?processInstanceId=" ++ p ++
        "&sortBy=startTime&sortOrder=asc") = none →
      (fetchProcessHistory cfg net p).trace.filter Step.isClientDo =
        [Step.clientDo ⟨"GET", cfg.camundaBaseURL ++
          "/history/activity-instance?processInstanceId=" ++ p ++
          "&sortBy=startTime&sortOrder=asc", some (cfg.camundaUser, cfg.camundaPass)⟩]) ∧
    (fetchProcessHistory cfg net "x&maxResults=1").trace.filter Step.isNewRequest =
      [Step.newRequest "GET" (cfg.camundaBaseURL ++
        "/history/activity-instance?processInstanceId=x&maxResults=1&sortBy=startTime&sortOrder=asc")] ∧
    (∀ e, net.newRequest "GET" (cfg.camundaBaseURL ++
        "/history/activity-instance?processInstanceId=" ++ p ++
        "&sortBy=startTime&sortOrder=asc") = some e →
      fetchProcessHistory cfg net p =
        ⟨[], some e, [Step.newRequest "GET" (cfg.camundaBaseURL ++
          "/history/activity-instance?processInstanceId=" ++ p ++
          "&sortBy=startTime&sortOrder=asc")]⟩) ∧
    ((∀ c ∈ cfg.camundaBaseURL.data, c ≠ '#') →
      beforeFragment (cfg.camundaBaseURL ++
        "/history/activity-instance?processInstanceId=" ++ p ++
        "&sortBy=startTime&sortOrder=asc") =
      cfg.camundaBaseURL ++ "/history/activity-instance?processInstanceId=" ++
        beforeFragment (p ++ "&sortBy=startTime&sortOrder=asc")) ∧
    ((∀ c ∈ cfg.camundaBaseURL.data, c ≠ '#') → (∀ c ∈ p.data, c ≠ '#') →
      beforeFragment (cfg.camundaBaseURL ++
        "/history/activity-instance?processInstanceId=" ++ p ++
        "&sortBy=startTime&sortOrder=asc") =
      cfg.camundaBaseURL ++ "/history/activity-instance?processInstanceId=" ++ p ++
        "&sortBy=startTime&sortOrder=asc") := by
  have general : ∀ q : String,
      (fetchProcessHistory cfg net q).trace.filter Step.isNewRequest =
        [Step.newRequest "GET" (historyRequest cfg q).URL] := by
    intro q
    rcases fetchProcessHistory_paths cfg net q with ⟨e, -, h⟩ | ⟨-, ⟨e, -, h⟩ | ⟨r, -, ⟨-, h⟩ |
      ⟨-, ⟨e, -, h⟩ | ⟨-, h⟩⟩⟩⟩ <;>
    · rw [h]
      simp [sentSteps, Step.isNewRequest]
  have hpath : ∀ c ∈ ("/history/activity-instance?processInstanceId=" : String).data,
      (c != '#') = true := by decide
  have htail : ∀ c ∈ ("&sortBy=startTime&sortOrder=asc" : String).data,
      (c != '#') = true := by decide
  have asBool : ∀ t : String, (∀ c ∈ t.data, c ≠ '#') → ∀ c ∈ t.data, (c != '#') = true := by
    intro t ht c hc
    simpa using ht c hc
  refine ⟨general p, ?_, ?_, ?_, ?_, ?_, ?_⟩
  · intro req hreq
    rcases fetchProcessHistory_paths cfg net p with ⟨e, -, h⟩ | ⟨-, ⟨e, -, h⟩ | ⟨r, -, ⟨-, h⟩ |
      ⟨-, ⟨e, -, h⟩ | ⟨-, h⟩⟩⟩⟩ <;>
    · rw [h] at hreq
      simp [sentSteps] at hreq
      try (subst hreq; exact ⟨rfl, rfl⟩)
  · intro hnew
    rcases fetchProcessHistory_paths cfg net p with ⟨e, he, -⟩ | ⟨-, ⟨e, -, h⟩ | ⟨r, -, ⟨-, h⟩ |
      ⟨-, ⟨e, -, h⟩ | ⟨-, h⟩⟩⟩⟩
    · simp [historyRequest, hnew] at he
    all_goals
      rw [h]
      simp [sentSteps, Step.isClientDo, historyRequest]
  · rw [general "x&maxResults=1"]
    simp only [historyRequest, String.append_assoc]
    rfl
  · intro e he
    exact fetchProcessHistory_of_newRequest_error cfg net p e he
  · intro hB
    apply String.ext
    simp only [beforeFragment, String.data_append, List.append_assoc]
    rw [List.takeWhile_append_of_pos (asBool _ hB), List.takeWhile_append_of_pos hpath]
  · intro hB hp
    apply String.ext
    simp only [beforeFragment, String.data_append, List.append_assoc]
    rw [List.takeWhile_append_of_pos (asBool _ hB), List.takeWhile_append_of_pos hpath,
      List.takeWhile_append_of_pos (asBool _ hp), List.takeWhile_eq_self_iff.mpr htail]

/-- C4 as the code has it, at the default configuration and the id `x&maxResults=1`:
with a remote that answers the request is sent with the id as given and reaches
the remote whole; with a library that refuses the URL nothing is requested. -/
theorem history_url_interpolates_id_verbatim_witness :
    (fetchProcessHistory defaultConfig (answering ⟨200, "[]", none⟩)
        "x&maxResults=1").trace.filter Step.isClientDo =
      [Step.clientDo ⟨"GET",
        "http://localhost:8080/engine-rest/history/activity-instance?processInstanceId=x&maxResults=1&sortBy=startTime&sortOrder=asc",
        some ("demo", "demo")⟩] ∧
    beforeFragment
        "http://localhost:8080/engine-rest/history/activity-instance?processInstanceId=x&maxResults=1&sortBy=startTime&sortOrder=asc" =
      "http://localhost:8080/engine-rest/history/activity-instance?processInstanceId=x&maxResults=1&sortBy=startTime&sortOrder=asc" ∧
    fetchProcessHistory defaultConfig
        ⟨fun _ _ => some (GoError.external "refused"), fun _ => Except.ok ⟨200, "[]", none⟩⟩
        "x&maxResults=1" =
      ⟨[], some (GoError.external "refused"), [Step.newRequest "GET"
        "http://localhost:8080/engine-rest/history/activity-instance?processInstanceId=x&maxResults=1&sortBy=startTime&sortOrder=asc"]⟩ :=
  ⟨(history_url_interpolates_id_verbatim defaultConfig (answering ⟨200, "[]", none⟩)
      "x&maxResults=1").2.2.1 rfl,
   (history_url_interpolates_id_verbatim defaultConfig (answering ⟨200, "[]", none⟩)
      "x&maxResults=1").2.2.2.2.2.2 (by decide) (by decide),
   (history_url_interpolates_id_verbatim defaultConfig
      ⟨fun _ _ => some (GoError.external "refused"), fun _ => Except.ok ⟨200, "[]", none⟩⟩
      "x&maxResults=1").2.2.2.2.1 (GoError.external "refused") rfl⟩

/-- C4 fails as stated. With a library that refuses control characters as
`url.Parse` does, the id `a`, line feed, `b` makes `fetchProcessHistory` return the
library's error after the one call of `http.NewRequest`: no request is sent. With
the id `a#b` the request is sent, and what reaches the remote ends after
`processInstanceId=a`, without `sortBy` and `sortOrder`. -/
theorem history_id_can_be_refused_or_cut :
    fetchProcessHistory defaultConfig (refusingControlCharacters ⟨200, "[]", none⟩) "a\nb" =
      ⟨[], some (GoError.external "net/url: invalid control character in URL"),
        [Step.newRequest "GET"
          "http://localhost:8080/engine-rest/history/activity-instance?processInstanceId=a\nb&sortBy=startTime&sortOrder=asc"]⟩ ∧
    (fetchProcessHistory defaultConfig (refusingControlCharacters ⟨200, "[]", none⟩)
        "a\nb").trace.filter Step.isClientDo = [] ∧
    (fetchProcessHistory defaultConfig (refusingControlCharacters ⟨200, "[]", none⟩)
        "a#b").trace.filter Step.isClientDo =
      [Step.clientDo ⟨"GET",
        "http://localhost:8080/engine-rest/history/activity-instance?processInstanceId=a#b&sortBy=startTime&sortOrder=asc",
        some ("demo", "demo")⟩] ∧
    beforeFragment
        "http://localhost:8080/engine-rest/history/activity-instance?processInstanceId=a#b&sortBy=startTime&sortOrder=asc" =
      "http://localhost:8080/engine-rest/history/activity-instance?processInstanceId=a" := by
  decide!

/-- C5. For every base URL `B`, user `u` and password `w`, `fetchProcesses` builds
one request: method `GET`, URL `B` followed by
`/history/process-instance?processDefinitionKey=ticket-refund&sortBy=startTime&sortOrder=desc&maxResults=10`,
credentials `(u, w)`. That is the one URL it hands to `http.NewRequest`, every request
it hands to `client.Do` is this one, it calls `client.Do` at most once, and exactly
once when `http.NewRequest` accepts the URL. The URL is the same for any two
configurations with the same base URL. -/
theorem processes_request_is_fixed (cfg : Config) (net : Net) :
    (fetchProcesses cfg net).trace.filter Step.isNewRequest =
      [Step.newRequest "GET" (cfg.camundaBaseURL ++
        "/history/process-instance?processDefinitionKey=ticket-refund&sortBy=startTime&sortOrder=desc&maxResults=10")] ∧
    (∀ req, Step.clientDo req ∈ (fetchProcesses cfg net).trace →
      req = ⟨"GET", cfg.camundaBaseURL ++
        "/history/process-instance?processDefinitionKey=ticket-refund&sortBy=startTime&sortOrder=desc&maxResults=10",
        some (cfg.camundaUser, cfg.camundaPass)⟩) ∧
    ((fetchProcesses cfg net).trace.filter Step.isClientDo).length ≤ 1 ∧
    (net.newRequest "GET" (cfg.camundaBaseURL ++
        "/history/process-instance?processDefinitionKey=ticket-refund&sortBy=startTime&sortOrder=desc&maxResults=10") = none →
      (fetchProcesses cfg net).trace.take 3 =
        [Step.newRequest "GET" (cfg.camundaBaseURL ++
          "/history/process-instance?processDefinitionKey=ticket-refund&sortBy=startTime&sortOrder=desc&maxResults=10"),
         Step.setBasicAuth cfg.camundaUser cfg.camundaPass,
         Step.clientDo ⟨"GET", cfg.camundaBaseURL ++
          "/history/process-instance?processDefinitionKey=ticket-refund&sortBy=startTime&sortOrder=desc&maxResults=10",
          some (cfg.camundaUser, cfg.camundaPass)⟩] ∧
      ((fetchProcesses cfg net).trace.filter Step.isClientDo).length = 1) ∧
    (∀ (cfg2 : Config) (net2 : Net), cfg2.camundaBaseURL = cfg.camundaBaseURL →
      (fetchProcesses cfg2 net2).trace.filter Step.isNewRequest =
        (fetchProcesses cfg net).trace.filter Step.isNewRequest) := by
  have general : ∀ (c : Config) (n : Net),
      (fetchProcesses c n).trace.filter Step.isNewRequest =
        [Step.newRequest "GET" (processesRequest c).URL] := by
    intro c n
    rcases fetchProcesses_paths c n with ⟨e, -, h⟩ | ⟨-, ⟨e, -, h⟩ | ⟨r, -, ⟨-, h⟩ |
      ⟨-, ⟨e, -, h⟩ | ⟨-, h⟩⟩⟩⟩ <;>
    · rw [h]
      simp [sentSteps, Step.isNewRequest]
  refine ⟨general cfg net, ?_, ?_, ?_, ?_⟩
  · intro req hreq
    rcases fetchProcesses_paths cfg net with ⟨e, -, h⟩ | ⟨-, ⟨e, -, h⟩ | ⟨r, -, ⟨-, h⟩ |
      ⟨-, ⟨e, -, h⟩ | ⟨-, h⟩⟩⟩⟩ <;>
    · rw [h] at hreq
      simp [sentSteps] at hreq
      try (subst hreq; rfl)
  · rcases fetchProcesses_paths cfg net with ⟨e, -, h⟩ | ⟨-, ⟨e, -, h⟩ | ⟨r, -, ⟨-, h⟩ |
      ⟨-, ⟨e, -, h⟩ | ⟨-, h⟩⟩⟩⟩ <;>
    · rw [h]
      simp [sentSteps, Step.isClientDo]
  · intro hnew
    rcases fetchProcesses_paths cfg net with ⟨e, he, -⟩ | ⟨-, ⟨e, -, h⟩ | ⟨r, -, ⟨-, h⟩ |
      ⟨-, ⟨e, -, h⟩ | ⟨-, h⟩⟩⟩⟩
    · simp [processesRequest, hnew] at he
    all_goals
      rw [h]
      simp [sentSteps, Step.isClientDo, processesRequest]
  · intro cfg2 net2 hB
    rw [general cfg2 net2, general cfg net]
    simp [processesRequest, hB]

/-- C5 at the default configuration and a remote that answers. -/
theorem processes_request_is_fixed_witness :
    (fetchProcesses defaultConfig (answering ⟨200, "[]", none⟩)).trace.take 3 =
      [Step.newRequest "GET"
        "http://localhost:8080/engine-rest/history/process-instance?processDefinitionKey=ticket-refund&sortBy=startTime&sortOrder=desc&maxResults=10",
       Step.setBasicAuth "demo" "demo",
       Step.clientDo ⟨"GET",
        "http://localhost:8080/engine-rest/history/process-instance?processDefinitionKey=ticket-refund&sortBy=startTime&sortOrder=desc&maxResults=10",
        some ("demo", "demo")⟩] ∧
    ((fetchProcesses defaultConfig (answering ⟨200, "[]", none⟩)).trace.filter
      Step.isClientDo).length = 1 :=
  (processes_request_is_fixed defaultConfig (answering ⟨200, "[]", none⟩)).2.2.2.1 rfl

/-- C6, as the code has it. Whenever `fetchProcesses` succeeds, the remote answered
with status 200 and the records returned are the body decoded: none for the body
`null`, and for an array its elements decoded one by one, in the order and number
in which the remote sent them. -/
theorem fetchProcesses_success_is_decoded_body (cfg : Config) (net : Net)
    (h : (fetchProcesses cfg net).err = none) :
    ∃ resp, net.clientDo (processesRequest cfg) = Except.ok resp ∧ resp.StatusCode = 200 ∧
      ((parseJSON resp.body = some JSON.null ∧ (fetchProcesses cfg net).records = []) ∨
       (∃ elems, parseJSON resp.body = some (JSON.array elems) ∧
          (fetchProcesses cfg net).records = elems.map (fun v => (decodeProcessInstance v).1) ∧
          (fetchProcesses cfg net).records.length = elems.length)) := by
  rcases fetchProcesses_paths cfg net with ⟨e, -, hp⟩ | ⟨-, ⟨e, -, hp⟩ | ⟨r, hdo, ⟨-, hp⟩ |
    ⟨hs, ⟨e, -, hp⟩ | ⟨-, hp⟩⟩⟩⟩
  · rw [hp] at h; simp at h
  · rw [hp] at h; simp at h
  · rw [hp] at h; simp at h
  · rw [hp] at h; simp at h
  · rw [hp] at h
    have hu : (unmarshalProcesses r.body).2 = none := h
    refine ⟨r, hdo, hs, ?_⟩
    rw [hp]
    simp only [hu]
    rcases unmarshalSlice_ok decodeProcessInstance r.body hu with ⟨hn, he⟩ | ⟨elems, ha, he, -⟩
    · exact Or.inl ⟨hn, he⟩
    · refine Or.inr ⟨elems, ha, he, ?_⟩
      have he2 : (unmarshalProcesses r.body).1
          = elems.map (fun v => (decodeProcessInstance v).1) := he
      rw [he2, List.length_map]

/-- C6 as the code has it, at a remote that answers with eleven process instances. -/
theorem fetchProcesses_success_is_decoded_body_witness :
    ∃ resp, (answering ⟨200, elevenProcessesBody, none⟩).clientDo (processesRequest defaultConfig)
        = Except.ok resp ∧ resp.StatusCode = 200 ∧
      ((parseJSON resp.body = some JSON.null ∧
          (fetchProcesses defaultConfig (answering ⟨200, elevenProcessesBody, none⟩)).records = []) ∨
       (∃ elems, parseJSON resp.body = some (JSON.array elems) ∧
          (fetchProcesses defaultConfig (answering ⟨200, elevenProcessesBody, none⟩)).records
            = elems.map (fun v => (decodeProcessInstance v).1) ∧
          (fetchProcesses defaultConfig (answering ⟨200, elevenProcessesBody, none⟩)).records.length
            = elems.length)) :=
  fetchProcesses_success_is_decoded_body defaultConfig (answering ⟨200, elevenProcessesBody, none⟩)
    (by decide!)

/-- C6 fails as stated. A remote that answers 200 with eleven process instances
makes `fetchProcesses` succeed with eleven records; a remote that answers 200 with
two process instances, earliest first, makes it succeed with the two in that order,
which is not descending. -/
theorem fetchProcesses_neither_bounds_nor_sorts :
    (fetchProcesses defaultConfig (answering ⟨200, elevenProcessesBody, none⟩)).err = none ∧
    (fetchProcesses defaultConfig (answering ⟨200, elevenProcessesBody, none⟩)).records.length = 11 ∧
    (fetchProcesses defaultConfig (answering ⟨200, ascendingProcessesBody, none⟩)).err = none ∧
    (fetchProcesses defaultConfig (answering ⟨200, ascendingProcessesBody, none⟩)).records =
      [⟨"p01", "", "2024-01-01T10:00:00Z", none, 0, none, none⟩,
       ⟨"p02", "", "2024-01-02T10:00:00Z", none, 0, none, none⟩] ∧
    startTimesDescending ((fetchProcesses defaultConfig
      (answering ⟨200, ascendingProcessesBody, none⟩)).records.map ProcessInstance.StartTime)
      = false := by
  decide!

/-- C7, as the code has it. Whenever `fetchProcessHistory` succeeds, the remote
answered with status 200 and the activities returned are the body decoded: none for
the body `null`, and for an array its elements decoded one by one, in the order in
which the remote sent them. -/
theorem fetchProcessHistory_success_is_decoded_body (cfg : Config) (net : Net) (p : String)
    (h : (fetchProcessHistory cfg net p).err = none) :
    ∃ resp, net.clientDo (historyRequest cfg p) = Except.ok resp ∧ resp.StatusCode = 200 ∧
      ((parseJSON resp.body = some JSON.null ∧ (fetchProcessHistory cfg net p).records = []) ∨
       (∃ elems, parseJSON resp.body = some (JSON.array elems) ∧
          (fetchProcessHistory cfg net p).records
            = elems.map (fun v => (decodeActivityInstance v).1))) := by
  rcases fetchProcessHistory_paths cfg net p with ⟨e, -, hp⟩ | ⟨-, ⟨e, -, hp⟩ |
    ⟨r, hdo, ⟨-, hp⟩ | ⟨hs, ⟨e, -, hp⟩ | ⟨-, hp⟩⟩⟩⟩
  · rw [hp] at h; simp at h
  · rw [hp] at h; simp at h
  · rw [hp] at h; simp at h
  · rw [hp] at h; simp at h
  · rw [hp] at h
    have hu : (unmarshalActivities r.body).2 = none := h
    refine ⟨r, hdo, hs, ?_⟩
    rw [hp]
    simp only [hu]
    rcases unmarshalSlice_ok decodeActivityInstance r.body hu with ⟨hn, he⟩ | ⟨elems, ha, he, -⟩
    · exact Or.inl ⟨hn, he⟩
    · exact Or.inr ⟨elems, ha, he⟩

/-- C7 as the code has it, at a remote that answers with two activities, latest
first. -/
theorem fetchProcessHistory_success_is_decoded_body_witness :
    ∃ resp, (answering ⟨200, descendingActivitiesBody, none⟩).clientDo
        (historyRequest defaultConfig "pi-1") = Except.ok resp ∧ resp.StatusCode = 200 ∧
      ((parseJSON resp.body = some JSON.null ∧
          (fetchProcessHistory defaultConfig
            (answering ⟨200, descendingActivitiesBody, none⟩) "pi-1").records = []) ∨
       (∃ elems, parseJSON resp.body = some (JSON.array elems) ∧
          (fetchProcessHistory defaultConfig
            (answering ⟨200, descendingActivitiesBody, none⟩) "pi-1").records
            = elems.map (fun v => (decodeActivityInstance v).1))) :=
  fetchProcessHistory_success_is_decoded_body defaultConfig
    (answering ⟨200, descendingActivitiesBody, none⟩) "pi-1" (by decide!)

/-- C7 fails as stated. A remote that answers 200 with two activities, latest
first, makes `fetchProcessHistory` succeed with the two in that order, which is not
ascending. -/
theorem fetchProcessHistory_does_not_sort :
    (fetchProcessHistory defaultConfig
      (answering ⟨200, descendingActivitiesBody, none⟩) "pi-1").err = none ∧
    (fetchProcessHistory defaultConfig
      (answering ⟨200, descendingActivitiesBody, none⟩) "pi-1").records =
      [⟨"Refund", "", "2024-01-02T10:00:00Z", "", 0, false⟩,
       ⟨"Review", "", "2024-01-01T10:00:00Z", "", 0, false⟩] ∧
    startTimesAscending ((fetchProcessHistory defaultConfig
      (answering ⟨200, descendingActivitiesBody, none⟩) "pi-1").records.map
        ActivityInstance.StartTime) = false := by
  decide!

/-- C3, as the code has it. Decoding a JSON object into a `ProcessInstance` keeps
absence apart from a value for `durationInMillis`, `businessKey` and `deleteReason`,
keys being compared up to case folding and the last member under a name deciding.
When no member's key matches the name, or the last that does holds `null`, the field
is `nil`; when the last holds an integer literal of value `n` within the 64-bit
range, respectively a string `t`, the field is present with exactly `n`,
respectively `t`. At the spec's scenario `fetchProcesses` returns the one record
described there, and a zero duration and an empty business key decode as present. -/
theorem optional_fields_keep_absence (members : List (String × JSON)) :
    ((∀ m ∈ members, foldName m.1 ≠ foldName "durationInMillis") →
      (decodeProcessInstance (JSON.object members)).1.DurationInMillis = none) ∧
    (memberValue "durationInMillis" members = some JSON.null →
      (decodeProcessInstance (JSON.object members)).1.DurationInMillis = none) ∧
    (∀ l n, memberValue "durationInMillis" members = some (JSON.number l) →
      parseInt64 l = some n →
      (decodeProcessInstance (JSON.object members)).1.DurationInMillis = some n) ∧
    ((∀ m ∈ members, foldName m.1 ≠ foldName "businessKey") →
      (decodeProcessInstance (JSON.object members)).1.BusinessKey = none) ∧
    (memberValue "businessKey" members = some JSON.null →
      (decodeProcessInstance (JSON.object members)).1.BusinessKey = none) ∧
    (∀ t, memberValue "businessKey" members = some (JSON.string t) →
      (decodeProcessInstance (JSON.object members)).1.BusinessKey = some t) ∧
    ((∀ m ∈ members, foldName m.1 ≠ foldName "deleteReason") →
      (decodeProcessInstance (JSON.object members)).1.DeleteReason = none) ∧
    (memberValue "deleteReason" members = some JSON.null →
      (decodeProcessInstance (JSON.object members)).1.DeleteReason = none) ∧
    (∀ t, memberValue "deleteReason" members = some (JSON.string t) →
      (decodeProcessInstance (JSON.object members)).1.DeleteReason = some t) ∧
    (fetchProcesses defaultConfig (answering ⟨200, scenarioBody, none⟩)).records =
      [⟨"pi-1", "COMPLETED", "2024-01-01T10:00:00Z", some 1500, 2, none, none⟩] ∧
    (fetchProcesses defaultConfig (answering ⟨200, scenarioBody, none⟩)).err = none ∧
    unmarshalProcesses zeroValuesBody = ([⟨"pi-2", "", "", some 0, 0, some "", none⟩], none) := by
  have hd := foldl_member_duration members (ProcessInstance.zero, false)
  have hb := foldl_member_businessKey members (ProcessInstance.zero, false)
  have hr := foldl_member_deleteReason members (ProcessInstance.zero, false)
  refine ⟨fun h => ?_, hd.2.1, hd.2.2, fun h => ?_, hb.2.1, hb.2.2, fun h => ?_, hr.2.1, hr.2.2,
    by decide!, by decide!, by decide!⟩
  · exact hd.1 ((memberValue_eq_none_iff _ members).mpr h)
  · exact hb.1 ((memberValue_eq_none_iff _ members).mpr h)
  · exact hr.1 ((memberValue_eq_none_iff _ members).mpr h)

/-- C3 as the code has it, at an object with a `null` business key, a zero
duration and no delete reason. -/
theorem optional_fields_keep_absence_witness :
    (decodeProcessInstance (JSON.object
      [("businessKey", JSON.null), ("durationInMillis", JSON.number ['0'])])).1.DurationInMillis
        = some 0 ∧
    (decodeProcessInstance (JSON.object
      [("businessKey", JSON.null), ("durationInMillis", JSON.number ['0'])])).1.BusinessKey
        = none ∧
    (decodeProcessInstance (JSON.object
      [("businessKey", JSON.null), ("durationInMillis", JSON.number ['0'])])).1.DeleteReason
        = none :=
  ⟨(optional_fields_keep_absence
      [("businessKey", JSON.null), ("durationInMillis", JSON.number ['0'])]).2.2.1
      ['0'] 0 rfl (by decide),
   (optional_fields_keep_absence
      [("businessKey", JSON.null), ("durationInMillis", JSON.number ['0'])]).2.2.2.2.1 rfl,
   (optional_fields_keep_absence
      [("businessKey", JSON.null), ("durationInMillis", JSON.number ['0'])]).2.2.2.2.2.2.1
      (by decide)⟩

/-- C3 fails as stated. The body whose one object has the single key
`DURATIONINMILLIS` has no key `durationInMillis`, yet `fetchProcesses` returns a
record whose duration is present, with the value 5. -/
theorem upper_case_key_is_stored :
    (∀ m ∈ [("DURATIONINMILLIS", JSON.number ['5'])], m.1 ≠ "durationInMillis") ∧
    parseJSON upperCaseKeyBody
      = some (JSON.array [JSON.object [("DURATIONINMILLIS", JSON.number ['5'])]]) ∧
    (fetchProcesses defaultConfig (answering ⟨200, upperCaseKeyBody, none⟩)).records =
      [⟨"", "", "", some 5, 0, none, none⟩] ∧
    (fetchProcesses defaultConfig (answering ⟨200, upperCaseKeyBody, none⟩)).err = none :=
  ⟨by decide, rfl, by decide!, by decide!⟩

end CamundaHistoryViewer
